import Mathlib

/-!
Verification of the clags declarative command-line argument parser
(`src/clags.h`) against its specification.

The embedding below translates the parsing engine of `clags.h` into Lean:

* C strings are `List Char` / `String` (tokens never contain NUL);
* `strtol`/`strtoll`/`strtoul`/`strtoull` are modelled for an LP64 platform
  (`long` = `long long` = 64 bits), following C17 semantics: optional
  whitespace, optional sign, base detection for base 0 (0x hex, leading-0
  octal, else decimal), value clamped to the type's range with `ERANGE`,
  unsigned conversion of a negated subject sequence wrapping modulo 2^64;
* the mutable run state of a schema (bound variables, `parent`, `invalid`,
  `error`, `name`, emitted diagnostics) lives in an explicit `GState`,
  keyed by numeric identifiers standing for the C pointers;
* external collaborators (filesystem probe for path/file/dir, the
  floating-point conversions used by double/time verifiers, user callback
  functions) are parameters of the semantics (`Env`, payload functions);
* the token scanner `clags_parse` is a fuel-indexed loop; the fuel supplied
  by the public entry point (`argv.length`) always suffices because every
  iteration consumes at least one token.
-/

namespace Clags

/-! ## Character and C-string helpers -/

/-- Characters accepted by `isspace` in the C locale. -/
def isWs (c : Char) : Bool :=
  c = ' ' ∨ c = '\t' ∨ c = '\n' ∨ c = '\x0b' ∨ c = '\x0c' ∨ c = '\r'

/-- ASCII lower-casing, as `tolower` does for the C locale. -/
def asciiLower (c : Char) : Char :=
  if 'A' ≤ c ∧ c ≤ 'Z' then Char.ofNat (c.toNat + 32) else c

/-- Case-insensitive equality of C strings (`strcasecmp(..) == 0`). -/
def caseEqL (a b : List Char) : Bool :=
  a.map asciiLower = b.map asciiLower

/-- Case-insensitive equality on `String` (`strcasecmp(..) == 0`). -/
def caseEqS (a b : String) : Bool :=
  caseEqL a.data b.data

/-- Value of a character as a digit (0-9, a-f, A-F), as used by `strtol`
for bases up to 16. -/
def hexVal (c : Char) : Option Nat :=
  if '0' ≤ c ∧ c ≤ '9' then some (c.toNat - 48)
  else if 'a' ≤ c ∧ c ≤ 'f' then some (c.toNat - 87)
  else if 'A' ≤ c ∧ c ≤ 'F' then some (c.toNat - 55)
  else none

/-- Digit value of `c` in the given base, `none` when `c` is not a valid
digit of that base. -/
def digitValIn (base : Nat) (c : Char) : Option Nat :=
  match hexVal c with
  | some d => if d < base then some d else none
  | none => none

/-- The `isdigit` test used by the scanner to recognise negative-number
positionals. -/
def isDigitC (c : Char) : Bool := '0' ≤ c ∧ c ≤ '9'

/-- Consume a maximal run of digits of `base`, accumulating the value
left-to-right; returns the value and the unconsumed suffix. -/
def digitRun (base : Nat) : Nat → List Char → Nat × List Char
  | acc, [] => (acc, [])
  | acc, c :: cs =>
    match digitValIn base c with
    | some d => digitRun base (acc * base + d) cs
    | none => (acc, c :: cs)

/-- Whether the list starts with a digit of `base` (i.e. whether
`digitRun` will consume at least one character). -/
def headDigit (base : Nat) : List Char → Bool
  | [] => false
  | c :: _ => (digitValIn base c).isSome

/-- Split an optional sign character off the front, as `strtol` does. -/
def splitSign : List Char → Bool × List Char
  | [] => (false, [])
  | c :: t =>
    if c = '-' then (true, t)
    else if c = '+' then (false, t)
    else (false, c :: t)

/-- Result of the textual part of a `strtol`-family conversion. -/
structure NumParse where
  mag : Nat
  neg : Bool
  converted : Bool
  rest : List Char
  deriving DecidableEq

/-- Base detection and digit consumption for base 0 (C17 `strtol`): a
leading `0x`/`0X` with at least one following hex digit selects base 16,
any other leading `0` selects base 8 (the zero itself counting as a
consumed digit), otherwise base 10; `none` when no digit is consumed. -/
def base0Conv : List Char → Option (Nat × List Char)
  | [] => none
  | c :: t =>
    if c = '0' then
      match t with
      | [] => some (0, [])
      | c2 :: t2 =>
        if (c2 = 'x' ∨ c2 = 'X') ∧ headDigit 16 t2 then some (digitRun 16 0 t2)
        else some (digitRun 8 0 t)
    else if headDigit 10 (c :: t) then some (digitRun 10 0 (c :: t))
    else none

/-- The subject-sequence scan shared by the `strtol` family (C17): skip
whitespace, take an optional sign, detect the base when `useBase0`
(`clags` passes base 0 for integer types and base 10 for sizes), and
consume a maximal digit run. When no digits are consumed, `rest` is the
whole input (endptr = nptr). -/
def cstrNumParse (useBase0 : Bool) (s : List Char) : NumParse :=
  let s1 := s.dropWhile isWs
  let sg := splitSign s1
  let conv : Option (Nat × List Char) :=
    if useBase0 then base0Conv sg.2
    else if headDigit 10 sg.2 then some (digitRun 10 0 sg.2) else none
  match conv with
  | none => ⟨0, false, false, s⟩
  | some (m, r) => ⟨m, sg.1, true, r⟩

/-- Largest `unsigned long long` value on the modelled platform. -/
def U64MAX : Nat := 18446744073709551615

/-- Largest `long long` value. -/
def I64MAX : Int := 9223372036854775807

/-- Smallest `long long` value. -/
def I64MIN : Int := -9223372036854775808

/-- Result of `strtoull` (value, `errno == ERANGE`, whether any digits
were converted, endptr suffix). -/
structure U64R where
  value : Nat
  erange : Bool
  converted : Bool
  rest : List Char
  deriving DecidableEq

/-- Model of `strtoull(s, &endptr, base)` with base 0 or 10: magnitude
overflow yields `ULLONG_MAX` with `ERANGE`; a minus sign wraps the value
modulo 2^64 (C17 7.22.1.4). -/
def strtoul64 (useBase0 : Bool) (s : List Char) : U64R :=
  let p := cstrNumParse useBase0 s
  if p.converted then
    if p.mag > U64MAX then ⟨U64MAX, true, true, p.rest⟩
    else ⟨(if p.neg then (2 ^ 64 - p.mag) % 2 ^ 64 else p.mag), false, true, p.rest⟩
  else ⟨0, false, false, s⟩

/-- Result of `strtoll`. -/
structure I64R where
  value : Int
  erange : Bool
  converted : Bool
  rest : List Char
  deriving DecidableEq

/-- Model of `strtoll(s, &endptr, base)`: clamps to
`[LLONG_MIN, LLONG_MAX]` with `ERANGE` on overflow. -/
def strtol64 (useBase0 : Bool) (s : List Char) : I64R :=
  let p := cstrNumParse useBase0 s
  if p.converted then
    let v : Int := if p.neg then -(p.mag : Int) else (p.mag : Int)
    if v > I64MAX then ⟨I64MAX, true, true, p.rest⟩
    else if v < I64MIN then ⟨I64MIN, true, true, p.rest⟩
    else ⟨v, false, true, p.rest⟩
  else ⟨0, false, false, s⟩

/-! ## Canonical decimal strings

These are used to state the round-trip property: `natDec n` is the decimal
numeral of `n`, `decStr v` the decimal string of an integer. -/

/-- The ASCII digit character for `d`. -/
def digitChar (d : Nat) : Char := Char.ofNat (48 + d)

/-- Accumulator form of decimal printing (most significant digit first). -/
def natDecAux (n : Nat) (acc : List Char) : List Char :=
  if h : n < 10 then digitChar n :: acc
  else natDecAux (n / 10) (digitChar (n % 10) :: acc)
  termination_by n
  decreasing_by exact Nat.div_lt_self (by omega) (by omega)

/-- Decimal numeral of a natural number. -/
def natDec (n : Nat) : List Char := natDecAux n []

/-- Decimal string of an integer (a minus sign followed by the numeral of
the magnitude when negative). -/
def decStr (v : Int) : String :=
  ⟨if v < 0 then '-' :: natDec (-v).toNat else natDec v.toNat⟩

/-- Number of decimal digits, following the recursion of `natDecAux`. -/
def ndigits (n : Nat) : Nat :=
  if n < 10 then 1 else ndigits (n / 10) + 1
  termination_by n
  decreasing_by exact Nat.div_lt_self (by omega) (by omega)

/-- The power of ten matching `ndigits`. -/
def pow10 (n : Nat) : Nat := 10 ^ ndigits n

/-! ## Error kinds, log levels, run state -/

/-- The `clags_error_t` enumeration. -/
inductive ClagsError where
  | ok
  | invalidConfig
  | invalidValue
  | invalidOption
  | tooManyArguments
  | tooFewArguments
  deriving DecidableEq

/-- The `clags_log_level_t` enumeration. -/
inductive Lvl where
  | info | warning | error | configWarning | configError | noLogs
  deriving DecidableEq

/-- Numeric value of a log level (its position in the C enum). -/
def lvlNat : Lvl → Nat
  | .info => 0 | .warning => 1 | .error => 2
  | .configWarning => 3 | .configError => 4 | .noLogs => 5

/-- Typed values a verifier can write into a bound variable.  Pointer-typed
bindings (choice entries, subcommand entries, config references) are
represented by the index / config identifier they point at. -/
inductive ClagsValue where
  | vStr (s : String)
  | vBool (b : Bool)
  | vI8 (i : Int)
  | vU8 (n : Nat)
  | vI32 (i : Int)
  | vU32 (n : Nat)
  | vI64 (i : Int)
  | vU64 (n : Nat)
  | vDouble (raw : String)
  | vChoiceRef (idx : Nat)
  | vSize (n : Nat)
  | vTime (n : Nat)
  | vSubcmdRef (idx : Nat)
  | vCustom (raw : String)
  | vConfigRef (cfgId : Nat)
  deriving DecidableEq

/-- Contents of one caller-provided variable slot. -/
inductive StoredVal where
  | unset
  | scalar (v : ClagsValue)
  | listv (vs : List ClagsValue)
  | count (n : Nat)
  deriving DecidableEq

/-- The mutable world of a parse run: variable slots keyed by identifier,
and per-config run fields (`parent`, `invalid`, `error`, `name`), plus the
sequence of diagnostics handed to the log handler (levels; message text is
not modelled) and the callback-flag invocations. -/
structure GState where
  store : Nat → StoredVal
  parents : Nat → Option Nat
  invalid : Nat → Bool
  error : Nat → ClagsError
  names : Nat → Option String
  logs : List Lvl
  callbacks : List Nat

/-- Pointwise update of a map. -/
def fupd {α : Type} (f : Nat → α) (k : Nat) (v : α) : Nat → α :=
  fun n => if n = k then v else f n

/-- Model of `clags_log`: the message reaches the handler unless the
config's minimum level is above the message level. -/
def emitLog (ml lvl : Lvl) (st : GState) : GState :=
  if lvlNat lvl < lvlNat ml then st else {st with logs := lvl :: st.logs}

/-- Write a scalar binding. -/
def setScalar (vid : Nat) (v : ClagsValue) (st : GState) : GState :=
  {st with store := fupd st.store vid (.scalar v)}

/-- Current contents of a list binding (`clags_list_t`, initially empty). -/
def curList (st : GState) (vid : Nat) : List ClagsValue :=
  match st.store vid with
  | .listv l => l
  | _ => []

/-- Model of `clags__append_to_list` after a successful verification. -/
def appendList (vid : Nat) (v : ClagsValue) (st : GState) : GState :=
  {st with store := fupd st.store vid (.listv (curList st vid ++ [v]))}

/-- Current value of a count-flag variable (caller-initialised to 0). -/
def curCount (st : GState) (vid : Nat) : Nat :=
  match st.store vid with
  | .count n => n
  | _ => 0

/-- Count-flag increment. -/
def bumpCount (vid : Nat) (st : GState) : GState :=
  {st with store := fupd st.store vid (.count (curCount st vid + 1))}

/-- Set a config's `error` field. -/
def setErrorSt (cid : Nat) (e : ClagsError) (st : GState) : GState :=
  {st with error := fupd st.error cid e}

/-! ## External collaborators -/

/-- What the filesystem probe (`stat`) reports for a path. -/
inductive FsKind where
  | missing | file | dir | other
  deriving DecidableEq

/-- External interfaces consumed by the verifiers: the filesystem probe and
the floating-point conversions (`strtod`) used by the double and time
verifiers, which are outside this integer-exact embedding. -/
structure Env where
  fs : String → FsKind
  strtodChk : String → Bool
  timeS : String → Option Nat
  timeNS : String → Option Nat

/-! ## Type verifiers (`clags__verify_*`)

Each returns the typed value on success and `none` on failure; writing the
target slot and setting the error field are done by the callers
(`setArg` / the scanner), as in the C code. -/

/-- Whether the whole token starts with a minus sign (`*arg == '-'`). -/
def headIsMinus : List Char → Bool
  | [] => false
  | c :: _ => c = '-'

/-- Model of `clags__verify_bool`. -/
def clags__verify_bool (arg : String) : Option Bool :=
  if caseEqS arg "true" ∨ caseEqS arg "yes" ∨ caseEqS arg "y" then some true
  else if caseEqS arg "false" ∨ caseEqS arg "no" ∨ caseEqS arg "n" then some false
  else none

/-- Model of `clags__verify_int8`: `strtol(arg, &endptr, 0)`, then the
trailing-character check, then `ERANGE` / bounds. -/
def clags__verify_int8 (arg : String) : Option Int :=
  let r := strtol64 true arg.data
  if r.rest = [] then
    if r.erange ∨ r.value < -128 ∨ r.value > 127 then none else some r.value
  else none

/-- Model of `clags__verify_int32`. -/
def clags__verify_int32 (arg : String) : Option Int :=
  let r := strtol64 true arg.data
  if r.rest = [] then
    if r.erange ∨ r.value < -2147483648 ∨ r.value > 2147483647 then none
    else some r.value
  else none

/-- Model of `clags__verify_int64` (the bounds tests are vacuous on LP64,
exactly as in the source; only `ERANGE` can reject an in-range parse). -/
def clags__verify_int64 (arg : String) : Option Int :=
  let r := strtol64 true arg.data
  if r.rest = [] then
    if r.erange ∨ r.value < I64MIN ∨ r.value > I64MAX then none else some r.value
  else none

/-- Model of `clags__verify_uint8`: `strtoul(arg, &endptr, 0)`, trailing
check, then `ERANGE` / bound / leading-minus. -/
def clags__verify_uint8 (arg : String) : Option Nat :=
  let r := strtoul64 true arg.data
  if r.rest = [] then
    if r.erange ∨ r.value > 255 ∨ headIsMinus arg.data then none else some r.value
  else none

/-- Model of `clags__verify_uint32`. -/
def clags__verify_uint32 (arg : String) : Option Nat :=
  let r := strtoul64 true arg.data
  if r.rest = [] then
    if r.erange ∨ r.value > 4294967295 ∨ headIsMinus arg.data then none
    else some r.value
  else none

/-- Model of `clags__verify_uint64`. -/
def clags__verify_uint64 (arg : String) : Option Nat :=
  let r := strtoul64 true arg.data
  if r.rest = [] then
    if r.erange ∨ r.value > U64MAX ∨ headIsMinus arg.data then none
    else some r.value
  else none

/-- A choice set (`clags_choices_t`): (value, description) pairs plus the
case-insensitivity flag; `printNoDetails` only affects usage rendering. -/
structure ChoiceSet where
  items : List (String × String)
  printNoDetails : Bool
  caseInsensitive : Bool

/-- Linear scan of `clags__verify_choice`, returning the index of the first
matching entry (the C code binds a pointer to that entry). -/
def choiceFindAux (ci : Bool) (arg : String) : List (String × String) → Nat → Option Nat
  | [], _ => none
  | (v, _) :: tl, i =>
    if (ci ∧ caseEqS v arg) ∨ (¬ci ∧ v = arg) then some i
    else choiceFindAux ci arg tl (i + 1)

/-- Model of `clags__verify_choice`'s scan. -/
def clags__verify_choice (cs : ChoiceSet) (arg : String) : Option Nat :=
  choiceFindAux cs.caseInsensitive arg cs.items 0

/-- The size unit table: exact empty / `"B"` match, case-insensitive
otherwise. -/
def unitFactor (u : List Char) : Option Nat :=
  if u = [] ∨ u = ['B'] then some 1
  else if caseEqL u "KiB".data then some 1024
  else if caseEqL u "KB".data then some 1000
  else if caseEqL u "MiB".data then some 1048576
  else if caseEqL u "MB".data then some 1000000
  else if caseEqL u "GiB".data then some 1073741824
  else if caseEqL u "GB".data then some 1000000000
  else if caseEqL u "TiB".data then some 1099511627776
  else if caseEqL u "TB".data then some 1000000000000
  else none

/-- Model of `clags__verify_size`: `strtoull(arg, &endptr, 10)`, the
no-leading-number check (`endptr == arg`), the unit table, then
`ERANGE` / multiplication-overflow (`value > UINT64_MAX/factor`) /
leading-minus checks, and finally the product. -/
def clags__verify_size (arg : String) : Option Nat :=
  let r := strtoul64 false arg.data
  if r.converted then
    match unitFactor r.rest with
    | some factor =>
      if r.erange ∨ r.value > U64MAX / factor ∨ headIsMinus arg.data then none
      else some (r.value * factor)
    | none => none
  else none

/-! ## The schema (`clags_config_t` and argument definitions)

Help-text fields (`description`, option `arg_name`) and the custom log
handler are rendering/sink-only and are omitted; `short_flag = '\0'` and
`long_flag = NULL` are `none`.  Field names that the token rules of this
development cannot spell verbatim keep the C meaning: `ignorePfx` is
`ignore_prefix`, `listTerm` is `list_terminator`. -/

/-- The `clags_value_type_t` enumeration. -/
inductive VType where
  | string | custom | bool
  | int8 | uint8 | int32 | uint32 | int64 | uint64
  | double | choice | path | file | dir | size | timeS | timeNS | subcmd
  deriving DecidableEq

/-- The `clags_flag_type_t` enumeration. -/
inductive FlagType where
  | boolFlag | configFlag | countFlag | callbackFlag
  deriving DecidableEq

/-- Extension payload of a positional (the union selected by
`value_type`); subcommand entries are (name, child config) pairs, with
`none` for a NULL child config pointer; a custom verifier is the external
predicate supplied by the caller (its own writes are summarised by the
raw token).  A payload is assumed to be well-tagged: reading the union
through a mismatched member is undefined behaviour in C and is not
modelled. -/
inductive PayloadPG (C : Type) where
  | pnone
  | pchoices (cs : ChoiceSet)
  | pcustom (f : String → Bool)
  | psubcmds (entries : List (String × Option C))

/-- A positional argument definition (`clags_positional_t`). -/
structure PosDefG (C : Type) where
  varId : Option Nat
  argName : String
  vtype : VType
  isList : Bool
  optional : Bool
  payload : PayloadPG C

/-- Extension payload of an option (subcommand options are rejected by
validation; the union never holds a subcommand set for a parseable
config). -/
inductive PayloadOV where
  | pnone
  | pchoices (cs : ChoiceSet)
  | pcustom (f : String → Bool)

/-- An option definition (`clags_option_t`). -/
structure OptDef where
  shortFlag : Option Char
  longFlag : Option String
  varId : Option Nat
  vtype : VType
  isList : Bool
  payload : PayloadOV

/-- A flag definition (`clags_flag_t`). -/
structure FlagDef where
  shortFlag : Option Char
  longFlag : Option String
  varId : Option Nat
  exitFlag : Bool
  ftype : FlagType

/-- One entry of a config's argument array (`clags_arg_t`). -/
inductive CArgG (C : Type) where
  | pos (p : PosDefG C)
  | opt (o : OptDef)
  | flag (f : FlagDef)

/-- The parse options of a config (`clags_options_t`); `ignoredVar` is the
optional capture list for ignored arguments, `dupStrings` the
string-duplication policy (which does not change the bound values). -/
structure COptions where
  ignorePfx : Option String
  ignoredVar : Option Nat
  listTerm : Option String
  printNoNotes : Bool
  allowToggle : Bool
  dupStrings : Bool
  minLogLevel : Lvl

/-- A schema (`clags_config_t`): identifier standing for the C pointer, the
argument array (`none` models `args == NULL`), and the parse options.  The
run-scoped fields live in `GState`, keyed by the identifier. -/
inductive Config where
  | mk (id : Nat) (argsF : Option (List (CArgG Config))) (opts : COptions)

/-- Argument entries of a concrete schema. -/
abbrev CArgC := CArgG Config

/-- Positional definitions of a concrete schema. -/
abbrev PosDefC := PosDefG Config

/-- The config's identifier. -/
def Config.id : Config → Nat
  | .mk i _ _ => i

/-- The config's argument array (`none` = NULL pointer). -/
def Config.argsF : Config → Option (List CArgC)
  | .mk _ a _ => a

/-- The config's parse options. -/
def Config.opts : Config → COptions
  | .mk _ _ o => o

/-- The argument array as a list (only read when non-NULL). -/
def Config.argsList (c : Config) : List CArgC := c.argsF.getD []

/-- Payload view handed to the verifier dispatch. -/
inductive PayloadV where
  | pnone
  | pchoices (cs : ChoiceSet)
  | pcustom (f : String → Bool)

/-- Payload view of a positional (the subcommand set is consumed by the
scanner's dedicated subcommand path, never by `setArg`). -/
def posPayloadV : PayloadPG Config → PayloadV
  | .pnone => .pnone
  | .pchoices cs => .pchoices cs
  | .pcustom f => .pcustom f
  | .psubcmds _ => .pnone

/-- Payload view of an option. -/
def optPayloadV : PayloadOV → PayloadV
  | .pnone => .pnone
  | .pchoices cs => .pchoices cs
  | .pcustom f => .pcustom f

/-- The subcommand set of a positional payload. -/
def posSubcmds : PayloadPG Config → List (String × Option Config)
  | .psubcmds es => es
  | _ => []

/-- The verifier dispatch (`clags__verify_funcs[value_type]`), returning
the value to store; `hasVar` is whether the target pointer is non-NULL
(`clags__verify_choice` fails on a NULL target, the others just skip the
write). -/
def runVerifier (env : Env) (hasVar : Bool) (vt : VType) (pl : PayloadV)
    (arg : String) : Option ClagsValue :=
  match vt with
  | .string => some (.vStr arg)
  | .custom =>
    match pl with
    | .pcustom f => if f arg then some (.vCustom arg) else none
    | _ => none
  | .bool => (clags__verify_bool arg).map .vBool
  | .int8 => (clags__verify_int8 arg).map .vI8
  | .uint8 => (clags__verify_uint8 arg).map .vU8
  | .int32 => (clags__verify_int32 arg).map .vI32
  | .uint32 => (clags__verify_uint32 arg).map .vU32
  | .int64 => (clags__verify_int64 arg).map .vI64
  | .uint64 => (clags__verify_uint64 arg).map .vU64
  | .double => if env.strtodChk arg then some (.vDouble arg) else none
  | .choice =>
    match pl with
    | .pchoices cs =>
      if hasVar then (clags__verify_choice cs arg).map .vChoiceRef else none
    | _ => none
  | .path => if env.fs arg ≠ .missing then some (.vStr arg) else none
  | .file => if env.fs arg = .file then some (.vStr arg) else none
  | .dir => if env.fs arg = .dir then some (.vStr arg) else none
  | .size => (clags__verify_size arg).map .vSize
  | .timeS => (env.timeS arg).map .vTime
  | .timeNS => (env.timeNS arg).map .vTime
  | .subcmd => none

/-- Model of `clags__set_arg`: run the verifier (through the list appender
for list-valued targets), write the slot on success, and on failure emit
the verifier's error diagnostic (except the silent NULL-target choice
case) and set the config's error to `InvalidValue`. -/
def setArg (env : Env) (cfgId : Nat) (ml : Lvl) (vt : VType) (pl : PayloadV)
    (varId : Option Nat) (isList : Bool) (arg : String) (st : GState) :
    Bool × GState :=
  let hasVar := if isList then true else varId.isSome
  match runVerifier env hasVar vt pl arg with
  | some v =>
    let st1 := match varId with
      | some vid => if isList then appendList vid v st else setScalar vid v st
      | none => st
    (true, st1)
  | none =>
    let st1 := if vt = .choice ∧ hasVar = false then st else emitLog ml .error st
    (false, setErrorSt cfgId .invalidValue st1)

/-- Model of `clags__set_flag` (a NULL variable is a no-op; the callback
flag invokes the external user procedure, recorded as an event). -/
def setFlag (cfgId : Nat) (f : FlagDef) (st : GState) : GState :=
  match f.varId with
  | none => st
  | some vid =>
    match f.ftype with
    | .boolFlag => setScalar vid (.vBool true) st
    | .configFlag => setScalar vid (.vConfigRef cfgId) st
    | .countFlag => bumpCount vid st
    | .callbackFlag => {st with callbacks := vid :: st.callbacks}

/-! ## Config validation (`clags__validate_*`) -/

/-- The payload-presence check of `clags__validate_positional`. -/
def posPayloadOk (p : PosDefC) : Bool :=
  match p.vtype, p.payload with
  | .subcmd, .psubcmds _ => true
  | .subcmd, _ => false
  | .choice, .pchoices _ => true
  | .choice, _ => false
  | .custom, .pcustom _ => true
  | .custom, _ => false
  | _, _ => true

/-- Model of `clags__validate_positional`. -/
def clags__validate_positional (ml : Lvl) (p : PosDefC) (st : GState) :
    Bool × GState :=
  if posPayloadOk p then (true, st) else (false, emitLog ml .configError st)

/-- Model of `clags__validate_option`: the unreachable-argument and
redundant-marker warnings, then the subcommand / missing-payload errors. -/
def clags__validate_option (ml : Lvl) (o : OptDef) (st : GState) :
    Bool × GState :=
  let st1 := if o.shortFlag = none ∧ o.longFlag = none then
      emitLog ml .configWarning st
    else st
  let st2 := match o.longFlag with
    | some lf => if ("--".data).isPrefixOf lf.data then emitLog ml .configWarning st1 else st1
    | none => st1
  match o.vtype with
  | .subcmd => (false, emitLog ml .configError st2)
  | .choice =>
    match o.payload with
    | .pchoices _ => (true, st2)
    | _ => (false, emitLog ml .configError st2)
  | .custom =>
    match o.payload with
    | .pcustom _ => (true, st2)
    | _ => (false, emitLog ml .configError st2)
  | _ => (true, st2)

/-- Model of `clags__validate_flag` (the flag-type switch can only fail on
an out-of-enum integer, which the closed `FlagType` cannot represent). -/
def clags__validate_flag (ml : Lvl) (f : FlagDef) (st : GState) :
    Bool × GState :=
  let st1 := if f.shortFlag = none ∧ f.longFlag = none then
      emitLog ml .configWarning st
    else st
  let st2 := match f.longFlag with
    | some lf => if ("--".data).isPrefixOf lf.data then emitLog ml .configWarning st1 else st1
    | none => st1
  (true, st2)

/-- How the argument walk of `clags__validate_config` exits: success, the
`clags_return_defer(false)` path (which sets the error field), or the bare
`return false` of the option/flag arms (which bypasses the defer and
leaves the error field untouched). -/
inductive VResult where
  | okR | deferR | bailR
  deriving DecidableEq

/-- The declaration walk of `clags__validate_config`, with its running
state (`last_was_list`, `subcmd_found`, `optional_found`,
`last_pos_name`). -/
def validateArgs (ml : Lvl) (lterm : Option String) :
    List CArgC → Bool → Bool → Bool → Option String → GState → VResult × GState
  | [], _, _, _, _, st => (.okR, st)
  | .pos p :: tl, lastWasList, subcmdFound, optionalFound, lastPosName, st =>
    match clags__validate_positional ml p st with
    | (false, st1) => (.deferR, st1)
    | (true, st1) =>
      if optionalFound ∧ ¬p.optional then (.deferR, emitLog ml .configError st1)
      else if p.vtype = .subcmd ∧ lastPosName ≠ none then
        (.deferR, emitLog ml .configError st1)
      else if p.vtype ≠ .subcmd ∧ subcmdFound then
        (.deferR, emitLog ml .configError st1)
      else if lastWasList ∧ lterm = none then
        (.deferR, emitLog ml .configError st1)
      else
        validateArgs ml lterm tl p.isList (subcmdFound ∨ p.vtype = .subcmd)
          p.optional (some p.argName) st1
  | .opt o :: tl, _, subcmdFound, optionalFound, lastPosName, st =>
    match clags__validate_option ml o st with
    | (false, st1) => (.bailR, st1)
    | (true, st1) =>
      validateArgs ml lterm tl false subcmdFound optionalFound lastPosName st1
  | .flag f :: tl, _, subcmdFound, optionalFound, lastPosName, st =>
    match clags__validate_flag ml f st with
    | (false, st1) => (.bailR, st1)
    | (true, st1) =>
      validateArgs ml lterm tl false subcmdFound optionalFound lastPosName st1

/-- Model of `clags__validate_config`: the reserved-token checks on the
options, then the declaration walk; the defer sets the error field to
`InvalidConfig` on failure, except on the bare-return path. -/
def clags__validate_config (cfg : Config) (st : GState) : Bool × GState :=
  let ml := cfg.opts.minLogLevel
  if cfg.opts.listTerm = some "--" then
    (false, setErrorSt cfg.id .invalidConfig (emitLog ml .configError st))
  else if cfg.opts.ignorePfx = some "--" then
    (false, setErrorSt cfg.id .invalidConfig (emitLog ml .configError st))
  else
    match validateArgs ml cfg.opts.listTerm cfg.argsList false false false none st with
    | (.okR, st1) => (true, st1)
    | (.deferR, st1) => (false, setErrorSt cfg.id .invalidConfig st1)
    | (.bailR, st1) => (false, st1)

/-! ## The token scanner (`clags_parse`) -/

/-- The classified argument groups of `clags__sort_args`, together with
the config fields the scanner reads. -/
structure PCtx where
  cfgId : Nat
  positionals : List PosDefC
  options : List OptDef
  flags : List FlagDef
  requiredTotal : Nat
  opts : COptions

/-- Model of `clags__sort_args`: partition the declarations by kind in
order and count the required positionals. -/
def clags__sort_args (cfg : Config) : PCtx :=
  let args := cfg.argsList
  let ps := args.filterMap fun a => match a with | .pos p => some p | _ => none
  { cfgId := cfg.id
    positionals := ps
    options := args.filterMap fun a => match a with | .opt o => some o | _ => none
    flags := args.filterMap fun a => match a with | .flag f => some f | _ => none
    requiredTotal := (ps.filter fun p => ¬p.optional).length
    opts := cfg.opts }

/-- The per-run scanner state. -/
structure LoopSt where
  inList : Bool
  parsingOptionals : Bool
  acceptOptions : Bool
  posCount : Nat
  reqCount : Nat
  ignored : Bool

/-- Scanner state at the start of a run. -/
def initLS : LoopSt := ⟨false, false, true, 0, 0, false⟩

/-- Whether a token matches the configured ignore marker
(`strncmp(arg, ignore_prefix, len) == 0`). -/
def matchIgnore : Option String → String → Bool
  | none, _ => false
  | some p, t => p.data.isPrefixOf t.data

/-- The token with the ignore marker stripped (`arg + ignore_prefix_len`). -/
def stripPfx (ip : Option String) (t : String) : String :=
  match ip with
  | some p => ⟨t.data.drop p.data.length⟩
  | none => t

/-- The option-value fetch loop: take the next token that does not match
the ignore marker (recording whether any were skipped); `none` when the
tokens run out (`Option flag requires argument`). -/
def takeValue (ip : Option String) : List String → Option (String × List String × Bool)
  | [] => none
  | t :: ts =>
    if matchIgnore ip t then
      match takeValue ip ts with
      | some (v, r, _) => some (v, r, true)
      | none => none
    else some (t, ts, false)

/-- First digit test used by the short-token condition. -/
def headIsDigit : List Char → Bool
  | c :: _ => isDigitC c
  | [] => false

/-- The short-token condition
(`*arg == '-' && !isdigit((unsigned char)arg[1])`). -/
def isShortTok : List Char → Bool
  | [] => false
  | c :: t => c = '-' ∧ ¬headIsDigit t

/-- Outcome of the long-option scan: no match, a prefix match with `=` but
an empty value (immediate error), a match whose value is the next token,
or a match with an attached `=value`. -/
inductive LongFind where
  | nf
  | emptyEq
  | fromNext (o : OptDef)
  | withVal (o : OptDef) (v : String)

/-- The long-option scan: first declared option whose long identifier is a
prefix of the token body and whose remainder is empty or `=value`
(other remainders keep scanning). -/
def findLong (arg2 : List Char) : List OptDef → LongFind
  | [] => .nf
  | o :: os =>
    match o.longFlag with
    | none => findLong arg2 os
    | some lf =>
      if lf.data.isPrefixOf arg2 then
        match arg2.drop lf.data.length with
        | [] => .fromNext o
        | '=' :: v => if v = [] then .emptyEq else .withVal o ⟨v⟩
        | _ => findLong arg2 os
      else findLong arg2 os

/-- The long-flag scan: first declared flag whose long identifier equals
the token body. -/
def findLongFlag (arg2 : List Char) : List FlagDef → Option FlagDef
  | [] => none
  | f :: fs =>
    match f.longFlag with
    | some lf => if lf.data = arg2 then some f else findLongFlag arg2 fs
    | none => findLongFlag arg2 fs

/-- First declared option with the given short letter. -/
def findShortOpt (c : Char) : List OptDef → Option OptDef
  | [] => none
  | o :: os => if o.shortFlag = some c then some o else findShortOpt c os

/-- Apply every flag whose short letter matches, in declaration order,
stopping after the first exit flag; returns (state, any matched,
exited). -/
def applyShortFlags (cfgId : Nat) (c : Char) : List FlagDef → GState → GState × Bool × Bool
  | [], st => (st, false, false)
  | f :: fs, st =>
    if f.shortFlag = some c then
      let st1 := setFlag cfgId f st
      if f.exitFlag then (st1, true, true)
      else
        let r := applyShortFlags cfgId c fs st1
        (r.1, true, r.2.2)
    else applyShortFlags cfgId c fs st

/-- Outcome of scanning one combined short token. -/
inductive ShortR where
  | contTok (st : GState)
  | contAt (rest : List String) (ign : Bool) (st : GState)
  | failR (st : GState)
  | exitR (st : GState)

/-- The character walk over a short token body: a short-option match
consumes the remainder of the token (or the next token) as its value and
stops the walk; short-flag matches apply their effects and continue. -/
def shortScan (env : Env) (ctx : PCtx) (rest : List String) :
    List Char → GState → ShortR
  | [], st => .contTok st
  | c :: cs, st =>
    match findShortOpt c ctx.options with
    | some o =>
      match cs with
      | _ :: _ =>
        let r := setArg env ctx.cfgId ctx.opts.minLogLevel o.vtype
          (optPayloadV o.payload) o.varId o.isList ⟨cs⟩ st
        if r.1 then .contTok r.2 else .failR r.2
      | [] =>
        match takeValue ctx.opts.ignorePfx rest with
        | none =>
          .failR (setErrorSt ctx.cfgId .invalidOption
            (emitLog ctx.opts.minLogLevel .error st))
        | some (v, rest2, ign) =>
          let r := setArg env ctx.cfgId ctx.opts.minLogLevel o.vtype
            (optPayloadV o.payload) o.varId o.isList v st
          if r.1 then .contAt rest2 ign r.2 else .failR r.2
    | none =>
      let r := applyShortFlags ctx.cfgId c ctx.flags st
      if r.2.2 then .exitR r.1
      else if r.2.1 then shortScan env ctx rest cs r.1
      else
        .failR (setErrorSt ctx.cfgId .invalidOption
          (emitLog ctx.opts.minLogLevel .error r.1))

/-- Exact-name lookup of `clags__verify_subcmd`, returning the index and
the child config of the first matching entry. -/
def findSubcmd : List (String × Option Config) → String → Nat → Option (Nat × Option Config)
  | [], _, _ => none
  | (n, oc) :: es, arg, i =>
    if n = arg then some (i, oc) else findSubcmd es arg (i + 1)

/-- Placeholder returned by the guarded positional lookup (never selected:
the scanner checks the index first). -/
def dummyPos : PosDefC := ⟨none, "", .string, false, false, .pnone⟩

/-- End-of-input handling: an unterminated open list counts as consumed,
the ignored-arguments warning is emitted, and missing required positionals
yield `TooFewArguments`. -/
def finishParse (ctx : PCtx) (ls : LoopSt) (st : GState) : Option Nat × GState :=
  let rc := if ls.inList then
      (if ls.parsingOptionals then ls.reqCount else ls.reqCount + 1)
    else ls.reqCount
  let st1 := if ls.ignored then emitLog ctx.opts.minLogLevel .warning st else st
  if rc < ctx.requiredTotal then
    (some ctx.cfgId, setErrorSt ctx.cfgId .tooFewArguments
      (emitLog ctx.opts.minLogLevel .error st1))
  else (none, st1)

/-- What one token dispatch asks the scanner driver to do next: continue
the loop on the given tokens, enter a child schema (a matched
subcommand's recursive `clags_parse` call), or return from the call. -/
inductive StepR where
  | cont (toks : List String) (ls : LoopSt) (st : GState)
  | enter (child : Config) (name : String) (toks : List String) (st : GState)
  | ret (r : Option Nat) (st : GState)

/-- The per-token dispatch of `clags_parse`, first match wins: the
reserved toggle token, the ignore marker, the list terminator (consuming
the token in both list states), long options/flags, combined short
options/flags, and finally positionals (with the subcommand hand-off). -/
def parseStep (env : Env) (ctx : PCtx) (arg : String) (rest : List String)
    (ls : LoopSt) (st : GState) : StepR :=
  if arg = "--" ∧ (ls.acceptOptions ∨ ctx.opts.allowToggle) then
    .cont rest {ls with acceptOptions := ¬ls.acceptOptions} st
  else if matchIgnore ctx.opts.ignorePfx arg then
    let st1 := match ctx.opts.ignoredVar with
      | some vid => appendList vid (.vStr (stripPfx ctx.opts.ignorePfx arg)) st
      | none => st
    .cont rest {ls with ignored := true} st1
  else if ctx.opts.listTerm = some arg then
    if ls.inList then
      .cont rest
        {ls with
          inList := false
          posCount := ls.posCount + 1
          reqCount := (if ls.parsingOptionals then ls.reqCount else ls.reqCount + 1)} st
    else .cont rest ls st
  else if ls.acceptOptions ∧ ("--".data).isPrefixOf arg.data then
    let arg2 := arg.data.drop 2
    if arg2 = [] then
      .ret (some ctx.cfgId) (setErrorSt ctx.cfgId .invalidOption
        (emitLog ctx.opts.minLogLevel .error st))
    else
      match findLong arg2 ctx.options with
      | .withVal o v =>
        let r := setArg env ctx.cfgId ctx.opts.minLogLevel o.vtype
          (optPayloadV o.payload) o.varId o.isList v st
        if r.1 then .cont rest ls r.2 else .ret (some ctx.cfgId) r.2
      | .fromNext o =>
        match takeValue ctx.opts.ignorePfx rest with
        | none =>
          .ret (some ctx.cfgId) (setErrorSt ctx.cfgId .invalidOption
            (emitLog ctx.opts.minLogLevel .error st))
        | some (v, rest2, ign) =>
          let r := setArg env ctx.cfgId ctx.opts.minLogLevel o.vtype
            (optPayloadV o.payload) o.varId o.isList v st
          if r.1 then .cont rest2 {ls with ignored := ls.ignored ∨ ign} r.2
          else .ret (some ctx.cfgId) r.2
      | .emptyEq =>
        .ret (some ctx.cfgId) (setErrorSt ctx.cfgId .invalidOption
          (emitLog ctx.opts.minLogLevel .error st))
      | .nf =>
        match findLongFlag arg2 ctx.flags with
        | some f =>
          let st1 := setFlag ctx.cfgId f st
          if f.exitFlag then .ret none st1 else .cont rest ls st1
        | none =>
          .ret (some ctx.cfgId) (setErrorSt ctx.cfgId .invalidOption
            (emitLog ctx.opts.minLogLevel .error st))
  else if ls.acceptOptions ∧ isShortTok arg.data then
    let body := arg.data.drop 1
    if body = [] then
      .ret (some ctx.cfgId) (setErrorSt ctx.cfgId .invalidOption
        (emitLog ctx.opts.minLogLevel .error st))
    else
      match shortScan env ctx rest body st with
      | .contTok st1 => .cont rest ls st1
      | .contAt rest2 ign st1 => .cont rest2 {ls with ignored := ls.ignored ∨ ign} st1
      | .failR st1 => .ret (some ctx.cfgId) st1
      | .exitR st1 => .ret none st1
  else
    if ls.posCount ≥ ctx.positionals.length then
      .ret (some ctx.cfgId) (setErrorSt ctx.cfgId .tooManyArguments
        (emitLog ctx.opts.minLogLevel .error st))
    else
      let p := ctx.positionals.getD ls.posCount dummyPos
      if p.vtype = .subcmd then
        match findSubcmd (posSubcmds p.payload) arg 0 with
        | none => .ret (some ctx.cfgId) (emitLog ctx.opts.minLogLevel .error st)
        | some (idx, ocfg) =>
          let st1 := match ocfg with
            | some child => {st with parents := fupd st.parents child.id (some ctx.cfgId)}
            | none => st
          let st2 := match p.varId with
            | some vid => setScalar vid (.vSubcmdRef idx) st1
            | none => st1
          match p.varId with
          | none => .ret none st2
          | some _ =>
            match ocfg with
            | none => .ret none st2
            | some child => .enter child arg rest st2
      else
        let ls1 := if p.isList then
            {ls with inList := true, parsingOptionals := p.optional}
          else
            {ls with
              posCount := ls.posCount + 1
              reqCount := (if p.optional then ls.reqCount else ls.reqCount + 1)
              parsingOptionals := p.optional}
        let r := setArg env ctx.cfgId ctx.opts.minLogLevel p.vtype
          (posPayloadV p.payload) p.varId p.isList arg st
        if r.1 then .cont rest ls1 r.2 else .ret (some ctx.cfgId) r.2

/-- The token scan of `clags_parse`.  The result is the C return value
(`none` = NULL, `some cid` = pointer to the failed config) and the final
state.  The fuel argument only bounds the recursion; the entry point
supplies `argv.length`, which always suffices since every step consumes
at least one token.  The `enter` action inlines the recursive
`clags_parse(argc-index, argv+index, child)` call: the matched name token
takes the child's program-name slot and the child scans the remaining
tokens with a fresh loop state. -/
def parseLoop (env : Env) : Nat → PCtx → List String → LoopSt → GState → Option Nat × GState
  | _, ctx, [], ls, st => finishParse ctx ls st
  | 0, _, _ :: _, _, st => (none, st)
  | fuel + 1, ctx, arg :: rest, ls, st =>
    match parseStep env ctx arg rest ls st with
    | .cont toks ls1 st1 => parseLoop env fuel ctx toks ls1 st1
    | .enter child name toks st1 =>
      if child.argsF.isNone || st1.invalid child.id then (none, st1)
      else
        match clags__validate_config child st1 with
        | (false, st2) =>
          (some child.id, {st2 with invalid := fupd st2.invalid child.id true})
        | (true, st2) =>
          let st3 := {st2 with
            names := fupd st2.names child.id (some name)
            error := fupd st2.error child.id .ok}
          parseLoop env fuel (clags__sort_args child) toks initLS st3
    | .ret r st1 => (r, st1)

/-- Model of the public `clags_parse`: the NULL-config / NULL-args /
already-invalid short-circuit (returning NULL), the one-time validation
(marking the schema invalid on failure), the run initialisation
(`name`, `error = Ok`), then the token scan over `argv + 1`. -/
def clags_parse (env : Env) (argv : List String) (ocfg : Option Config)
    (st : GState) : Option Nat × GState :=
  match ocfg with
  | none => (none, st)
  | some cfg =>
    if cfg.argsF.isNone || st.invalid cfg.id then (none, st)
    else
      match clags__validate_config cfg st with
      | (false, st1) => (some cfg.id, {st1 with invalid := fupd st1.invalid cfg.id true})
      | (true, st1) =>
        let st2 := {st1 with
          names := fupd st1.names cfg.id (some (argv.headD ""))
          error := fupd st1.error cfg.id .ok}
        parseLoop env argv.length (clags__sort_args cfg) (argv.drop 1) initLS st2

/-! ## Concrete worlds and schemas used by the claims -/

/-- Zero-initialised `clags_options_t`. -/
def defOpts : COptions := ⟨none, none, none, false, false, false, .info⟩

/-- Trivial external world (no filesystem entries, failing float parses). -/
def env0 : Env := ⟨fun _ => .missing, fun _ => false, fun _ => none, fun _ => none⟩

/-- Fresh run state. -/
def st0 : GState :=
  ⟨fun _ => .unset, fun _ => none, fun _ => false, fun _ => .ok, fun _ => none, [], []⟩

/-- The positional declarations of an argument array, in order. -/
def positionalsOf (args : List CArgC) : List PosDefC :=
  args.filterMap fun a => match a with | .pos p => some p | _ => none

/-- The boolean outcome of `clags__validate_option`, without the log
side effects. -/
def optCheckOk (o : OptDef) : Bool :=
  match o.vtype with
  | .subcmd => false
  | .choice => (match o.payload with | .pchoices _ => true | _ => false)
  | .custom => (match o.payload with | .pcustom _ => true | _ => false)
  | _ => true

/-- A schema declaring a required positional anywhere after an optional
one (in the sense of the ordering invariant). -/
def hasReqAfterOpt (ps : List PosDefC) : Prop :=
  ∃ i j : Fin ps.length, i < j ∧ (ps.get i).optional = true ∧ (ps.get j).optional = false

/-- The ordering invariant maintained by the validation walk: with
`b` the incoming `optional_found` flag, no required positional ever
follows an optional one. -/
def okOrder : Bool → List PosDefC → Prop
  | _, [] => True
  | b, p :: ps => (b = true → p.optional = true) ∧ okOrder p.optional ps

/-- Two run states agreeing on everything except the diagnostics log and
callback record (what a log-only computation preserves). -/
def coreEq (a b : GState) : Prop :=
  a.store = b.store ∧ a.parents = b.parents ∧ a.invalid = b.invalid ∧
  a.names = b.names ∧ a.error = b.error

/-- The boundary data of the integer value types: type tag, minimum and
maximum representable value. -/
def numericTypes : List (VType × Int × Int) :=
  [(.int8, -128, 127),
   (.uint8, 0, 255),
   (.int32, -2147483648, 2147483647),
   (.uint32, 0, 4294967295),
   (.int64, I64MIN, I64MAX),
   (.uint64, 0, (U64MAX : Int))]

/-- The stored representation of integer `v` at an integer value type. -/
def mkNumVal (vt : VType) (v : Int) : ClagsValue :=
  match vt with
  | .int8 => .vI8 v
  | .uint8 => .vU8 v.toNat
  | .int32 => .vI32 v
  | .uint32 => .vU32 v.toNat
  | .int64 => .vI64 v
  | .uint64 => .vU64 v.toNat
  | _ => .vStr ""

/-- One-positional schema of the given value type, bound to slot 0. -/
def numCfg (vt : VType) : Config :=
  .mk 0 (some [.pos ⟨some 0, "n", vt, false, false, .pnone⟩]) defOpts

/-- Schema whose positionals are declared in the invalid order
[optional, required]. -/
def cfgBadOrder : Config :=
  .mk 10 (some [.pos ⟨none, "a", .string, false, true, .pnone⟩,
                .pos ⟨none, "b", .string, false, false, .pnone⟩]) defOpts

/-- Child schema `childA` of the subcommand example: one long flag
`--fast` bound to slot 30. -/
def childA : Config :=
  .mk 21 (some [.flag ⟨none, some "fast", some 30, false, .boolFlag⟩]) defOpts

/-- Child schema `childB` of the subcommand example. -/
def childB : Config := .mk 22 (some []) defOpts

/-- Root schema with a single subcommand positional over
{"build" ↦ childA, "test" ↦ childB}, bound to slot 31. -/
def rootSub : Config :=
  .mk 20 (some [.pos ⟨some 31, "cmd", .subcmd, false, false,
    .psubcmds [("build", some childA), ("test", some childB)]⟩]) defOpts

/-- The state transformation the scanner performs before delegating to
`childA`: the root's run initialisation (`name`, `error = Ok`), the
parent link of the child, and the binding of the matched entry. -/
def subLinkState (st : GState) : GState :=
  {st with
    names := fupd st.names 20 (some "prog")
    error := fupd st.error 20 .ok
    parents := fupd st.parents 21 (some 20)
    store := fupd st.store 31 (.scalar (.vSubcmdRef 0))}

/-- Schema with short flags a, b, c (slots 41-43) and a value-taking
short option o (slot 44). -/
def cfgShort : Config :=
  .mk 40 (some [.flag ⟨some 'a', none, some 41, false, .boolFlag⟩,
                .flag ⟨some 'b', none, some 42, false, .boolFlag⟩,
                .flag ⟨some 'c', none, some 43, false, .boolFlag⟩,
                .opt ⟨some 'o', none, some 44, .string, false, .pnone⟩]) defOpts

/-- Schema with list terminator `::` and two adjacent list positionals
(slots 51 and 52). -/
def cfgLists : Config :=
  .mk 50 (some [.pos ⟨some 51, "l1", .string, true, false, .pnone⟩,
                .pos ⟨some 52, "l2", .string, true, false, .pnone⟩])
    {defOpts with listTerm := some "::"}

/-- Schema with no terminator and a single trailing list positional
(slot 56). -/
def cfgTrail : Config :=
  .mk 55 (some [.pos ⟨some 56, "l", .string, true, false, .pnone⟩]) defOpts

/-- Schema with list terminator `::` and one required scalar positional
(slot 61). -/
def cfgTerm : Config :=
  .mk 60 (some [.pos ⟨some 61, "x", .string, false, false, .pnone⟩])
    {defOpts with listTerm := some "::"}

/-- Schema declaring an invalid option (subcommand-typed) before an
optional-then-required positional pair. -/
def cfgMixed : Config :=
  .mk 90 (some [.opt ⟨some 'z', none, none, .subcmd, false, .pnone⟩,
                .pos ⟨none, "a", .string, false, true, .pnone⟩,
                .pos ⟨none, "b", .string, false, false, .pnone⟩]) defOpts

/-- A config whose argument-definition array is NULL. -/
def cfgNullArgs : Config := .mk 100 none defOpts

/-- A config with an empty (non-NULL) argument array. -/
def cfgEmpty : Config := .mk 101 (some []) defOpts

/-! ## Lemmas: decimal numerals through the strtol model -/

theorem digitValIn_digitChar {d : Nat} (h : d < 10) :
    digitValIn 10 (digitChar d) = some d := by
  interval_cases d <;> decide

theorem digitChar_not_ws {d : Nat} (h : d < 10) : isWs (digitChar d) = false := by
  interval_cases d <;> decide

theorem digitChar_ne_minus {d : Nat} (h : d < 10) : digitChar d ≠ '-' := by
  interval_cases d <;> decide

theorem digitChar_ne_plus {d : Nat} (h : d < 10) : digitChar d ≠ '+' := by
  interval_cases d <;> decide

theorem digitChar_ne_zero {d : Nat} (h : d < 10) (h1 : 1 ≤ d) : digitChar d ≠ '0' := by
  interval_cases d <;> decide

theorem digitChar_isDigit {d : Nat} (h : d < 10) : isDigitC (digitChar d) = true := by
  interval_cases d <;> decide

theorem ndigits_lt {n : Nat} (h : n < 10) : ndigits n = 1 := by
  rw [ndigits]; simp [h]

theorem ndigits_ge {n : Nat} (h : ¬ n < 10) : ndigits n = ndigits (n / 10) + 1 := by
  rw [ndigits]; simp [h]

theorem pow10_lt {n : Nat} (h : n < 10) : pow10 n = 10 := by
  rw [pow10, ndigits_lt h]; rfl

theorem pow10_ge {n : Nat} (h : ¬ n < 10) : pow10 n = pow10 (n / 10) * 10 := by
  rw [pow10, pow10, ndigits_ge h, pow_succ]

theorem digitRun_cons_digit {base : Nat} {c : Char} {d : Nat}
    (h : digitValIn base c = some d) (a : Nat) (cs : List Char) :
    digitRun base a (c :: cs) = digitRun base (a * base + d) cs := by
  simp [digitRun, h]

theorem digitRun_natDecAux (n : Nat) : ∀ a acc,
    digitRun 10 a (natDecAux n acc) = digitRun 10 (a * pow10 n + n) acc := by
  induction n using Nat.strong_induction_on with
  | _ n ih =>
    intro a acc
    by_cases h : n < 10
    · rw [natDecAux, dif_pos h, digitRun_cons_digit (digitValIn_digitChar h), pow10_lt h]
    · rw [natDecAux, dif_neg h,
        ih (n / 10) (Nat.div_lt_self (by omega) (by omega)) a (digitChar (n % 10) :: acc),
        digitRun_cons_digit (digitValIn_digitChar (Nat.mod_lt n (by omega))),
        pow10_ge h, ← Nat.mul_assoc]
      congr 1
      generalize a * pow10 (n / 10) = q
      omega

theorem digitRun_natDec (n : Nat) : digitRun 10 0 (natDec n) = (n, []) := by
  rw [natDec, digitRun_natDecAux]
  simp [digitRun]

theorem natDecAux_struct (n : Nat) : ∀ acc,
    ∃ d t, natDecAux n acc = digitChar d :: t ∧ d < 10 ∧ (1 ≤ n → 1 ≤ d) := by
  induction n using Nat.strong_induction_on with
  | _ n ih =>
    intro acc
    by_cases h : n < 10
    · exact ⟨n, acc, by rw [natDecAux, dif_pos h], h, fun hn => hn⟩
    · obtain ⟨d, t, he, hd, hpos⟩ :=
        ih (n / 10) (Nat.div_lt_self (by omega) (by omega)) (digitChar (n % 10) :: acc)
      exact ⟨d, t, by rw [natDecAux, dif_neg h, he], hd, fun _ => hpos (by omega)⟩

theorem natDec_struct (n : Nat) :
    ∃ d t, natDec n = digitChar d :: t ∧ d < 10 ∧ (1 ≤ n → 1 ≤ d) :=
  natDecAux_struct n []

theorem natDec_zero : natDec 0 = ['0'] := by
  rw [natDec, natDecAux]; decide

theorem base0Conv_natDec (n : Nat) : base0Conv (natDec n) = some (n, []) := by
  by_cases h0 : n = 0
  · subst h0; rw [natDec_zero]; decide
  · obtain ⟨d, t, he, hd, hpos⟩ := natDec_struct n
    have hd1 : 1 ≤ d := hpos (by omega)
    have hne : ¬ digitChar d = '0' := digitChar_ne_zero hd hd1
    have hh : headDigit 10 (digitChar d :: t) = true := by
      simp [headDigit, digitValIn_digitChar hd]
    calc base0Conv (natDec n) = base0Conv (digitChar d :: t) := by rw [he]
      _ = some (digitRun 10 0 (digitChar d :: t)) := by
          simp [base0Conv, hne, hh]
      _ = some (digitRun 10 0 (natDec n)) := by rw [he]
      _ = some (n, []) := by rw [digitRun_natDec]

theorem dropWhile_natDec (n : Nat) : (natDec n).dropWhile isWs = natDec n := by
  obtain ⟨d, t, he, hd, _⟩ := natDec_struct n
  rw [he, List.dropWhile_cons, digitChar_not_ws hd]
  simp

theorem splitSign_natDec (n : Nat) : splitSign (natDec n) = (false, natDec n) := by
  obtain ⟨d, t, he, hd, _⟩ := natDec_struct n
  rw [he]
  simp [splitSign, digitChar_ne_minus hd, digitChar_ne_plus hd]

theorem cstrNumParse_natDec (n : Nat) :
    cstrNumParse true (natDec n) = ⟨n, false, true, []⟩ := by
  simp only [cstrNumParse, dropWhile_natDec, splitSign_natDec, if_true,
    base0Conv_natDec]

theorem cstrNumParse_negDec (n : Nat) :
    cstrNumParse true ('-' :: natDec n) = ⟨n, true, true, []⟩ := by
  have hws : isWs '-' = false := by decide
  simp only [cstrNumParse, List.dropWhile_cons, hws, Bool.false_eq_true, if_false,
    List.dropWhile_nil]
  simp only [splitSign, if_pos rfl, if_true, base0Conv_natDec]

theorem headIsMinus_natDec (n : Nat) : headIsMinus (natDec n) = false := by
  obtain ⟨d, t, he, hd, _⟩ := natDec_struct n
  rw [he]
  simp [headIsMinus, digitChar_ne_minus hd]

theorem decStr_data_neg {v : Int} (h : v < 0) :
    (decStr v).data = '-' :: natDec (-v).toNat := by
  simp [decStr, h]

theorem decStr_data_nonneg {v : Int} (h : 0 ≤ v) :
    (decStr v).data = natDec v.toNat := by
  simp [decStr, Int.not_lt.mpr h]

/-! ## Lemmas: the strtol family on decimal strings -/

theorem strtoul64_decStr {v : Int} (h0 : 0 ≤ v) (h : v ≤ (U64MAX : Int)) :
    strtoul64 true (decStr v).data = ⟨v.toNat, false, true, []⟩ := by
  rw [decStr_data_nonneg h0]
  simp only [strtoul64, cstrNumParse_natDec, if_true, Bool.false_eq_true, if_false]
  rw [if_neg (show ¬ v.toNat > U64MAX by simp only [U64MAX] at h ⊢; omega)]

theorem strtoul64_decStr_over {v : Int} (h : (U64MAX : Int) < v) :
    strtoul64 true (decStr v).data = ⟨U64MAX, true, true, []⟩ := by
  rw [decStr_data_nonneg (by simp only [U64MAX] at h; omega)]
  simp only [strtoul64, cstrNumParse_natDec, if_true]
  rw [if_pos (show v.toNat > U64MAX by simp only [U64MAX] at h ⊢; omega)]

theorem strtoul64_negDec {n : Nat} (h1 : 1 ≤ n) (h2 : n ≤ U64MAX) :
    strtoul64 true ('-' :: natDec n) = ⟨2 ^ 64 - n, false, true, []⟩ := by
  simp only [strtoul64, cstrNumParse_negDec, if_true]
  rw [if_neg (show ¬ n > U64MAX by omega)]
  rw [Nat.mod_eq_of_lt (show 2 ^ 64 - n < 2 ^ 64 by omega)]

theorem strtol64_decStr {v : Int} (h1 : I64MIN ≤ v) (h2 : v ≤ I64MAX) :
    strtol64 true (decStr v).data = ⟨v, false, true, []⟩ := by
  by_cases hv : v < 0
  · rw [decStr_data_neg hv]
    simp only [strtol64, cstrNumParse_negDec, if_true]
    rw [Int.toNat_of_nonneg (show (0:Int) ≤ -v by omega), neg_neg]
    rw [if_neg (show ¬ v > I64MAX by simp only [I64MAX]; omega),
      if_neg (show ¬ v < I64MIN by simp only [I64MIN] at h1 ⊢; omega)]
  · rw [decStr_data_nonneg (by omega)]
    simp only [strtol64, cstrNumParse_natDec, if_true, Bool.false_eq_true, if_false]
    rw [Int.toNat_of_nonneg (show (0:Int) ≤ v by omega)]
    rw [if_neg (show ¬ v > I64MAX by simp only [I64MAX] at h2 ⊢; omega),
      if_neg (show ¬ v < I64MIN by simp only [I64MIN]; omega)]

theorem strtol64_decStr_over {v : Int} (h : I64MAX < v) :
    strtol64 true (decStr v).data = ⟨I64MAX, true, true, []⟩ := by
  rw [decStr_data_nonneg (by simp only [I64MAX] at h; omega)]
  simp only [strtol64, cstrNumParse_natDec, if_true, Bool.false_eq_true, if_false]
  rw [Int.toNat_of_nonneg (show (0:Int) ≤ v by simp only [I64MAX] at h; omega)]
  rw [if_pos h]

theorem strtol64_decStr_under {v : Int} (h : v < I64MIN) :
    strtol64 true (decStr v).data = ⟨I64MIN, true, true, []⟩ := by
  have hv : v < 0 := by simp only [I64MIN] at h; omega
  rw [decStr_data_neg hv]
  simp only [strtol64, cstrNumParse_negDec, if_true]
  rw [Int.toNat_of_nonneg (show (0:Int) ≤ -v by omega), neg_neg]
  rw [if_neg (show ¬ v > I64MAX by simp only [I64MAX]; omega), if_pos h]

/-! ## Lemmas: the integer verifiers on decimal strings -/

theorem verify_int8_rt {v : Int} (h1 : -128 ≤ v) (h2 : v ≤ 127) :
    clags__verify_int8 (decStr v) = some v := by
  have hin : I64MIN ≤ v := by simp only [I64MIN]; omega
  have hax : v ≤ I64MAX := by simp only [I64MAX]; omega
  simp only [clags__verify_int8, strtol64_decStr hin hax, eq_self_iff_true, if_true,
    Bool.false_eq_true, false_or]
  rw [if_neg (show ¬ (v < -128 ∨ v > 127) by omega)]

theorem verify_int8_none {v : Int} (h : v < -128 ∨ 127 < v)
    (hin : I64MIN ≤ v) (hax : v ≤ I64MAX) :
    clags__verify_int8 (decStr v) = none := by
  simp only [clags__verify_int8, strtol64_decStr hin hax, eq_self_iff_true, if_true,
    Bool.false_eq_true, false_or]
  rw [if_pos (show v < -128 ∨ v > 127 by omega)]

theorem verify_int32_rt {v : Int} (h1 : -2147483648 ≤ v) (h2 : v ≤ 2147483647) :
    clags__verify_int32 (decStr v) = some v := by
  have hin : I64MIN ≤ v := by simp only [I64MIN]; omega
  have hax : v ≤ I64MAX := by simp only [I64MAX]; omega
  simp only [clags__verify_int32, strtol64_decStr hin hax, eq_self_iff_true, if_true,
    Bool.false_eq_true, false_or]
  rw [if_neg (show ¬ (v < -2147483648 ∨ v > 2147483647) by omega)]

theorem verify_int32_none {v : Int} (h : v < -2147483648 ∨ 2147483647 < v)
    (hin : I64MIN ≤ v) (hax : v ≤ I64MAX) :
    clags__verify_int32 (decStr v) = none := by
  simp only [clags__verify_int32, strtol64_decStr hin hax, eq_self_iff_true, if_true,
    Bool.false_eq_true, false_or]
  rw [if_pos (show v < -2147483648 ∨ v > 2147483647 by omega)]

theorem verify_int64_rt {v : Int} (h1 : I64MIN ≤ v) (h2 : v ≤ I64MAX) :
    clags__verify_int64 (decStr v) = some v := by
  simp only [clags__verify_int64, strtol64_decStr h1 h2, eq_self_iff_true, if_true,
    Bool.false_eq_true, false_or]
  rw [if_neg (show ¬ (v < I64MIN ∨ v > I64MAX) by push_neg; exact ⟨h1, h2⟩)]

theorem verify_int64_over {v : Int} (h : I64MAX < v) :
    clags__verify_int64 (decStr v) = none := by
  simp only [clags__verify_int64, strtol64_decStr_over h, eq_self_iff_true, if_true]
  rw [if_pos (Or.inl trivial)]

theorem verify_int64_under {v : Int} (h : v < I64MIN) :
    clags__verify_int64 (decStr v) = none := by
  simp only [clags__verify_int64, strtol64_decStr_under h, eq_self_iff_true, if_true]
  rw [if_pos (Or.inl trivial)]

theorem verify_uint8_rt {v : Int} (h1 : 0 ≤ v) (h2 : v ≤ 255) :
    clags__verify_uint8 (decStr v) = some v.toNat := by
  have hax : v ≤ (U64MAX : Int) := by simp only [U64MAX]; omega
  simp only [clags__verify_uint8, strtoul64_decStr h1 hax, eq_self_iff_true, if_true,
    Bool.false_eq_true, false_or]
  rw [decStr_data_nonneg h1, headIsMinus_natDec]
  simp only [Bool.false_eq_true, or_false]
  rw [if_neg (show ¬ v.toNat > 255 by omega)]

theorem verify_uint8_none_hi {v : Int} (h1 : 0 ≤ v) (h : 255 < v)
    (hax : v ≤ (U64MAX : Int)) :
    clags__verify_uint8 (decStr v) = none := by
  simp only [clags__verify_uint8, strtoul64_decStr h1 hax, eq_self_iff_true, if_true,
    Bool.false_eq_true, false_or]
  rw [if_pos (Or.inl (show v.toNat > 255 by omega))]

theorem verify_uint32_rt {v : Int} (h1 : 0 ≤ v) (h2 : v ≤ 4294967295) :
    clags__verify_uint32 (decStr v) = some v.toNat := by
  have hax : v ≤ (U64MAX : Int) := by simp only [U64MAX]; omega
  simp only [clags__verify_uint32, strtoul64_decStr h1 hax, eq_self_iff_true, if_true,
    Bool.false_eq_true, false_or]
  rw [decStr_data_nonneg h1, headIsMinus_natDec]
  simp only [Bool.false_eq_true, or_false]
  rw [if_neg (show ¬ v.toNat > 4294967295 by omega)]

theorem verify_uint32_none_hi {v : Int} (h1 : 0 ≤ v) (h : 4294967295 < v)
    (hax : v ≤ (U64MAX : Int)) :
    clags__verify_uint32 (decStr v) = none := by
  simp only [clags__verify_uint32, strtoul64_decStr h1 hax, eq_self_iff_true, if_true,
    Bool.false_eq_true, false_or]
  rw [if_pos (Or.inl (show v.toNat > 4294967295 by omega))]

theorem verify_uint64_rt {v : Int} (h1 : 0 ≤ v) (h2 : v ≤ (U64MAX : Int)) :
    clags__verify_uint64 (decStr v) = some v.toNat := by
  simp only [clags__verify_uint64, strtoul64_decStr h1 h2, eq_self_iff_true, if_true,
    Bool.false_eq_true, false_or]
  rw [decStr_data_nonneg h1, headIsMinus_natDec]
  simp only [Bool.false_eq_true, or_false]
  rw [if_neg (show ¬ v.toNat > U64MAX by simp only [U64MAX] at h2 ⊢; omega)]

theorem verify_uint64_over {v : Int} (h : (U64MAX : Int) < v) :
    clags__verify_uint64 (decStr v) = none := by
  simp only [clags__verify_uint64, strtoul64_decStr_over h, eq_self_iff_true, if_true]
  rw [if_pos (Or.inl trivial)]

theorem uint8_minus (cs : List Char) : clags__verify_uint8 ⟨'-' :: cs⟩ = none := by
  simp only [clags__verify_uint8]
  by_cases h : (strtoul64 true (String.mk ('-' :: cs)).data).rest = []
  · rw [if_pos h, if_pos (Or.inr (Or.inr (by simp [headIsMinus])))]
  · rw [if_neg h]

theorem uint32_minus (cs : List Char) : clags__verify_uint32 ⟨'-' :: cs⟩ = none := by
  simp only [clags__verify_uint32]
  by_cases h : (strtoul64 true (String.mk ('-' :: cs)).data).rest = []
  · rw [if_pos h, if_pos (Or.inr (Or.inr (by simp [headIsMinus])))]
  · rw [if_neg h]

theorem uint64_minus (cs : List Char) : clags__verify_uint64 ⟨'-' :: cs⟩ = none := by
  simp only [clags__verify_uint64]
  by_cases h : (strtoul64 true (String.mk ('-' :: cs)).data).rest = []
  · rw [if_pos h, if_pos (Or.inr (Or.inr (by simp [headIsMinus])))]
  · rw [if_neg h]

theorem decStr_neg_one : decStr (-1) = ⟨'-' :: natDec 1⟩ := by
  simp [decStr]

/-! ## Lemmas: decimal tokens dispatch to the positional branch -/

theorem decStr_routing (v : Int) :
    decStr v ≠ "--" ∧ (("--".data).isPrefixOf (decStr v).data) = false ∧
      isShortTok (decStr v).data = false := by
  by_cases hv : v < 0
  · obtain ⟨d, t, he, hd, hpos⟩ := natDec_struct (-v).toNat
    have hdata : (decStr v).data = '-' :: digitChar d :: t := by
      rw [decStr_data_neg hv, he]
    refine ⟨?_, ?_, ?_⟩
    · intro hcontra
      have hc := congrArg String.data hcontra
      rw [hdata] at hc
      have h2 : digitChar d = '-' := by
        injection hc with _ h2
        injection h2 with h2 _
      exact digitChar_ne_minus hd h2
    · rw [hdata]
      show (['-', '-'].isPrefixOf ('-' :: digitChar d :: t)) = false
      simp [List.isPrefixOf, Ne.symm (digitChar_ne_minus hd)]
    · rw [hdata]
      simp [isShortTok, headIsDigit, digitChar_isDigit hd]
  · obtain ⟨d, t, he, hd, hpos⟩ := natDec_struct v.toNat
    have hdata : (decStr v).data = digitChar d :: t := by
      rw [decStr_data_nonneg (by omega), he]
    refine ⟨?_, ?_, ?_⟩
    · intro hcontra
      have hc := congrArg String.data hcontra
      rw [hdata] at hc
      have h2 : digitChar d = '-' := by injection hc
      exact digitChar_ne_minus hd h2
    · rw [hdata]
      show (['-', '-'].isPrefixOf (digitChar d :: t)) = false
      simp [List.isPrefixOf, Ne.symm (digitChar_ne_minus hd)]
    · rw [hdata]
      simp [isShortTok, digitChar_ne_minus hd]

/-! ## Lemmas: scanner plumbing -/

theorem clags_parse_via_validate {env : Env} {cfg : Config} {st st1 : GState}
    {argv : List String}
    (h : cfg.argsF.isNone = false) (hinv : st.invalid cfg.id = false)
    (hval : clags__validate_config cfg st = (true, st1)) :
    clags_parse env argv (some cfg) st =
      parseLoop env argv.length (clags__sort_args cfg) (argv.drop 1) initLS
        {st1 with
          names := fupd st1.names cfg.id (some (argv.headD ""))
          error := fupd st1.error cfg.id .ok} := by
  simp only [clags_parse, h, hinv, Bool.or_self, Bool.false_eq_true, if_false, hval]

theorem parseStep_posArm {env : Env} {ctx : PCtx} {t : String} {ls : LoopSt}
    {st : GState} {rest : List String}
    (hni : ctx.opts.ignorePfx = none) (hnt : ctx.opts.listTerm = none)
    (h1 : t ≠ "--") (h2 : (("--".data).isPrefixOf t.data) = false)
    (h3 : isShortTok t.data = false)
    (hlen : ls.posCount < ctx.positionals.length)
    (hsub : (ctx.positionals.getD ls.posCount dummyPos).vtype ≠ .subcmd)
    (hnl : (ctx.positionals.getD ls.posCount dummyPos).isList = false) :
    parseStep env ctx t rest ls st =
      (let p := ctx.positionals.getD ls.posCount dummyPos
       let ls1 : LoopSt :=
         {ls with
           posCount := ls.posCount + 1
           reqCount := (if p.optional then ls.reqCount else ls.reqCount + 1)
           parsingOptionals := p.optional}
       let r := setArg env ctx.cfgId ctx.opts.minLogLevel p.vtype (posPayloadV p.payload)
         p.varId p.isList t st
       if r.1 then StepR.cont rest ls1 r.2 else .ret (some ctx.cfgId) r.2) := by
  rw [parseStep]
  rw [if_neg (fun hc => h1 hc.1)]
  rw [hni]
  rw [if_neg (show ¬ matchIgnore none t = true by simp [matchIgnore])]
  rw [hnt]
  rw [if_neg (show ¬ (none : Option String) = some t by simp)]
  rw [if_neg (show ¬ (ls.acceptOptions = true ∧ ("--".data.isPrefixOf t.data) = true) by
    rw [h2]; rintro ⟨-, hc⟩; exact Bool.false_ne_true hc)]
  rw [if_neg (show ¬ (ls.acceptOptions = true ∧ isShortTok t.data = true) by
    rw [h3]; rintro ⟨-, hc⟩; exact Bool.false_ne_true hc)]
  rw [if_neg (show ¬ ls.posCount ≥ ctx.positionals.length by omega)]
  rw [if_neg hsub]
  simp only []
  rw [hnl]
  simp only [Bool.false_eq_true, if_false]

theorem validate_numCfg {vt : VType}
    (hvt : vt ∈ ([.int8, .uint8, .int32, .uint32, .int64, .uint64] : List VType))
    (st : GState) :
    clags__validate_config (numCfg vt) st = (true, st) := by
  fin_cases hvt <;> rfl

theorem numCfg_parse_ok {vt : VType}
    (hvt : vt ∈ ([.int8, .uint8, .int32, .uint32, .int64, .uint64] : List VType))
    {t : String} (h1 : t ≠ "--") (h2 : ("--".data).isPrefixOf t.data = false)
    (h3 : isShortTok t.data = false) {val : ClagsValue}
    (hr : runVerifier env0 true vt .pnone t = some val) :
    clags_parse env0 ["prog", t] (some (numCfg vt)) st0 =
      (none, { st0 with
        store := fupd st0.store 0 (.scalar val)
        names := fupd st0.names 0 (some "prog")
        error := fupd st0.error 0 .ok }) := by
  have hne : vt ≠ .subcmd := by fin_cases hvt <;> decide
  rw [clags_parse_via_validate (show (numCfg vt).argsF.isNone = false from rfl)
    (show st0.invalid (numCfg vt).id = false from rfl) (validate_numCfg hvt st0)]
  show parseLoop env0 (1 + 1) (clags__sort_args (numCfg vt)) [t] initLS
      {st0 with
        names := fupd st0.names 0 (some "prog")
        error := fupd st0.error 0 .ok} = _
  rw [parseLoop.eq_3]
  rw [parseStep_posArm rfl rfl h1 h2 h3
    (show initLS.posCount < (clags__sort_args (numCfg vt)).positionals.length from Nat.one_pos)
    (show ((clags__sort_args (numCfg vt)).positionals.getD initLS.posCount dummyPos).vtype
        ≠ .subcmd from hne)
    (show ((clags__sort_args (numCfg vt)).positionals.getD initLS.posCount
        dummyPos).isList = false from rfl)]
  have hp : (clags__sort_args (numCfg vt)).positionals.getD initLS.posCount dummyPos
      = ⟨some 0, "n", vt, false, false, .pnone⟩ := rfl
  simp only [hp, setArg, posPayloadV, Option.isSome, Bool.false_eq_true, if_false, hr]
  rfl

theorem numCfg_parse_fail {vt : VType}
    (hvt : vt ∈ ([.int8, .uint8, .int32, .uint32, .int64, .uint64] : List VType))
    {t : String} (h1 : t ≠ "--") (h2 : ("--".data).isPrefixOf t.data = false)
    (h3 : isShortTok t.data = false)
    (hr : runVerifier env0 true vt .pnone t = none) :
    clags_parse env0 ["prog", t] (some (numCfg vt)) st0 =
      (some 0, { st0 with
        names := fupd st0.names 0 (some "prog")
        error := fupd (fupd st0.error 0 .ok) 0 .invalidValue
        logs := [.error] }) := by
  have hne : vt ≠ .subcmd := by fin_cases hvt <;> decide
  have hnc : vt ≠ .choice := by fin_cases hvt <;> decide
  rw [clags_parse_via_validate (show (numCfg vt).argsF.isNone = false from rfl)
    (show st0.invalid (numCfg vt).id = false from rfl) (validate_numCfg hvt st0)]
  show parseLoop env0 (1 + 1) (clags__sort_args (numCfg vt)) [t] initLS
      {st0 with
        names := fupd st0.names 0 (some "prog")
        error := fupd st0.error 0 .ok} = _
  rw [parseLoop.eq_3]
  rw [parseStep_posArm rfl rfl h1 h2 h3
    (show initLS.posCount < (clags__sort_args (numCfg vt)).positionals.length from Nat.one_pos)
    (show ((clags__sort_args (numCfg vt)).positionals.getD initLS.posCount dummyPos).vtype
        ≠ .subcmd from hne)
    (show ((clags__sort_args (numCfg vt)).positionals.getD initLS.posCount
        dummyPos).isList = false from rfl)]
  have hp : (clags__sort_args (numCfg vt)).positionals.getD initLS.posCount dummyPos
      = ⟨some 0, "n", vt, false, false, .pnone⟩ := rfl
  simp only [hp, setArg, posPayloadV, Option.isSome, Bool.false_eq_true, if_false, hr]
  rw [if_neg (fun hc => hnc hc.1)]
  rfl

/-! ## Claim C2 -/

/-- C2: for every integer value type, parsing the decimal string of any
value within the type's [min, max] bounds through a schema binding one
positional of that type succeeds and stores exactly that value in the
bound slot, while the decimal string of the value one past either bound
makes the verifier fail and `clags_parse` return the config with its
error field set to `InvalidValue` (and nothing stored). -/
theorem c2_numeric_roundtrip :
    ∀ vt lo hi, (vt, lo, hi) ∈ numericTypes →
      (∀ v : Int, lo ≤ v → v ≤ hi →
        clags_parse env0 ["prog", decStr v] (some (numCfg vt)) st0 =
          (none, { st0 with
            store := fupd st0.store 0 (.scalar (mkNumVal vt v))
            names := fupd st0.names 0 (some "prog")
            error := fupd st0.error 0 .ok })) ∧
      (∀ b : Int, b = hi + 1 ∨ b = lo - 1 →
        runVerifier env0 true vt .pnone (decStr b) = none ∧
        clags_parse env0 ["prog", decStr b] (some (numCfg vt)) st0 =
          (some (numCfg vt).id, { st0 with
            names := fupd st0.names 0 (some "prog")
            error := fupd (fupd st0.error 0 .ok) 0 .invalidValue
            logs := [.error] })) := by
  intro vt lo hi hmem
  fin_cases hmem
  · refine ⟨fun v h1 h2 => ?_, fun b hb => ?_⟩
    · obtain ⟨r1, r2, r3⟩ := decStr_routing v
      exact numCfg_parse_ok (by decide) r1 r2 r3
        (by simp [runVerifier, verify_int8_rt h1 h2, mkNumVal])
    · obtain ⟨r1, r2, r3⟩ := decStr_routing b
      have hr : runVerifier env0 true .int8 .pnone (decStr b) = none := by
        have hv : clags__verify_int8 (decStr b) = none := by
          rcases hb with rfl | rfl
          · exact verify_int8_none (by omega) (by simp only [I64MIN]; omega)
              (by simp only [I64MAX]; omega)
          · exact verify_int8_none (by omega) (by simp only [I64MIN]; omega)
              (by simp only [I64MAX]; omega)
        simp [runVerifier, hv]
      exact ⟨hr, numCfg_parse_fail (by decide) r1 r2 r3 hr⟩
  · refine ⟨fun v h1 h2 => ?_, fun b hb => ?_⟩
    · obtain ⟨r1, r2, r3⟩ := decStr_routing v
      exact numCfg_parse_ok (by decide) r1 r2 r3
        (by simp [runVerifier, verify_uint8_rt h1 h2, mkNumVal])
    · obtain ⟨r1, r2, r3⟩ := decStr_routing b
      have hr : runVerifier env0 true .uint8 .pnone (decStr b) = none := by
        have hv : clags__verify_uint8 (decStr b) = none := by
          rcases hb with rfl | rfl
          · exact verify_uint8_none_hi (by omega) (by omega)
              (by simp only [U64MAX]; omega)
          · rw [show (0:Int) - 1 = -1 by norm_num, decStr_neg_one]
            exact uint8_minus (natDec 1)
        simp [runVerifier, hv]
      exact ⟨hr, numCfg_parse_fail (by decide) r1 r2 r3 hr⟩
  · refine ⟨fun v h1 h2 => ?_, fun b hb => ?_⟩
    · obtain ⟨r1, r2, r3⟩ := decStr_routing v
      exact numCfg_parse_ok (by decide) r1 r2 r3
        (by simp [runVerifier, verify_int32_rt h1 h2, mkNumVal])
    · obtain ⟨r1, r2, r3⟩ := decStr_routing b
      have hr : runVerifier env0 true .int32 .pnone (decStr b) = none := by
        have hv : clags__verify_int32 (decStr b) = none := by
          rcases hb with rfl | rfl
          · exact verify_int32_none (by omega) (by simp only [I64MIN]; omega)
              (by simp only [I64MAX]; omega)
          · exact verify_int32_none (by omega) (by simp only [I64MIN]; omega)
              (by simp only [I64MAX]; omega)
        simp [runVerifier, hv]
      exact ⟨hr, numCfg_parse_fail (by decide) r1 r2 r3 hr⟩
  · refine ⟨fun v h1 h2 => ?_, fun b hb => ?_⟩
    · obtain ⟨r1, r2, r3⟩ := decStr_routing v
      exact numCfg_parse_ok (by decide) r1 r2 r3
        (by simp [runVerifier, verify_uint32_rt h1 h2, mkNumVal])
    · obtain ⟨r1, r2, r3⟩ := decStr_routing b
      have hr : runVerifier env0 true .uint32 .pnone (decStr b) = none := by
        have hv : clags__verify_uint32 (decStr b) = none := by
          rcases hb with rfl | rfl
          · exact verify_uint32_none_hi (by omega) (by omega)
              (by simp only [U64MAX]; omega)
          · rw [show (0:Int) - 1 = -1 by norm_num, decStr_neg_one]
            exact uint32_minus (natDec 1)
        simp [runVerifier, hv]
      exact ⟨hr, numCfg_parse_fail (by decide) r1 r2 r3 hr⟩
  · refine ⟨fun v h1 h2 => ?_, fun b hb => ?_⟩
    · obtain ⟨r1, r2, r3⟩ := decStr_routing v
      exact numCfg_parse_ok (by decide) r1 r2 r3
        (by simp [runVerifier, verify_int64_rt h1 h2, mkNumVal])
    · obtain ⟨r1, r2, r3⟩ := decStr_routing b
      have hr : runVerifier env0 true .int64 .pnone (decStr b) = none := by
        have hv : clags__verify_int64 (decStr b) = none := by
          rcases hb with rfl | rfl
          · exact verify_int64_over (by omega)
          · exact verify_int64_under (by omega)
        simp [runVerifier, hv]
      exact ⟨hr, numCfg_parse_fail (by decide) r1 r2 r3 hr⟩
  · refine ⟨fun v h1 h2 => ?_, fun b hb => ?_⟩
    · obtain ⟨r1, r2, r3⟩ := decStr_routing v
      exact numCfg_parse_ok (by decide) r1 r2 r3
        (by simp [runVerifier, verify_uint64_rt h1 h2, mkNumVal])
    · obtain ⟨r1, r2, r3⟩ := decStr_routing b
      have hr : runVerifier env0 true .uint64 .pnone (decStr b) = none := by
        have hv : clags__verify_uint64 (decStr b) = none := by
          rcases hb with rfl | rfl
          · exact verify_uint64_over (by omega)
          · rw [show (0:Int) - 1 = -1 by norm_num, decStr_neg_one]
            exact uint64_minus (natDec 1)
        simp [runVerifier, hv]
      exact ⟨hr, numCfg_parse_fail (by decide) r1 r2 r3 hr⟩

/-- Witness for C2: the int32 case at the concrete value 5. -/
theorem c2_numeric_roundtrip_witness :
    clags_parse env0 ["prog", decStr 5] (some (numCfg .int32)) st0 =
      (none, { st0 with
        store := fupd st0.store 0 (.scalar (mkNumVal .int32 5))
        names := fupd st0.names 0 (some "prog")
        error := fupd st0.error 0 .ok }) :=
  (c2_numeric_roundtrip .int32 (-2147483648) 2147483647 (by decide)).1 5
    (by decide) (by decide)

/-! ## Claim C1 -/

/-- C1 counterexample: after the first parse of a schema whose validation
fails, the schema is marked invalid with error `InvalidConfig`, but the
next `clags_parse` call on it returns NULL (`none`) — not a pointer to
the failed config as the claim states. -/
theorem c1_counterexample :
    (clags_parse env0 ["p"] (some cfgBadOrder) st0).1 = some cfgBadOrder.id ∧
    (clags_parse env0 ["p"] (some cfgBadOrder) st0).2.error cfgBadOrder.id
      = .invalidConfig ∧
    (clags_parse env0 ["p"] (some cfgBadOrder) st0).2.invalid cfgBadOrder.id = true ∧
    (clags_parse env0 ["p"] (some cfgBadOrder)
      (clags_parse env0 ["p"] (some cfgBadOrder) st0).2).1 = none := by
  decide

/-- C1 (amended): every `clags_parse` call on a schema already marked
invalid short-circuits before validation, leaving the whole run state
(including the diagnostics log and the `InvalidConfig` error field left by
the first call) untouched, and returns NULL — the same return value as a
successful parse. -/
theorem c1_amended {env : Env} {argv : List String} {cfg : Config} {st : GState}
    (h : st.invalid cfg.id = true) :
    clags_parse env argv (some cfg) st = (none, st) := by
  simp only [clags_parse, h, Bool.or_true, if_true]

/-- Witness for C1 (amended) at a concrete invalid-marked schema. -/
theorem c1_amended_witness :
    clags_parse env0 ["q"] (some cfgBadOrder)
        {st0 with invalid := fupd st0.invalid 10 true}
      = (none, {st0 with invalid := fupd st0.invalid 10 true}) :=
  c1_amended (by decide)

/-! ## Claim C4 -/

/-- C4: with short flags a, b, c and a value-taking short option o,
`-abc` sets all three flag targets true; `-aovalue` sets a and binds o to
"value"; and in `-aobc` the option consumes the remaining characters "bc"
as its attached value, so the b and c flags are never applied (scanning
of the token stops at the value-bearing option). -/
theorem c4_short_combination :
    (clags_parse env0 ["p", "-abc"] (some cfgShort) st0).1 = none ∧
    (clags_parse env0 ["p", "-abc"] (some cfgShort) st0).2.store 41
      = .scalar (.vBool true) ∧
    (clags_parse env0 ["p", "-abc"] (some cfgShort) st0).2.store 42
      = .scalar (.vBool true) ∧
    (clags_parse env0 ["p", "-abc"] (some cfgShort) st0).2.store 43
      = .scalar (.vBool true) ∧
    (clags_parse env0 ["p", "-aovalue"] (some cfgShort) st0).1 = none ∧
    (clags_parse env0 ["p", "-aovalue"] (some cfgShort) st0).2.store 41
      = .scalar (.vBool true) ∧
    (clags_parse env0 ["p", "-aovalue"] (some cfgShort) st0).2.store 44
      = .scalar (.vStr "value") ∧
    (clags_parse env0 ["p", "-aobc"] (some cfgShort) st0).1 = none ∧
    (clags_parse env0 ["p", "-aobc"] (some cfgShort) st0).2.store 44
      = .scalar (.vStr "bc") ∧
    (clags_parse env0 ["p", "-aobc"] (some cfgShort) st0).2.store 42 = .unset ∧
    (clags_parse env0 ["p", "-aobc"] (some cfgShort) st0).2.store 43 = .unset := by
  decide

/-! ## Claim C5 -/

/-- C5: with terminator `::` and two adjacent list positionals, parsing
a b :: c succeeds with the first list holding exactly [a, b] and the
second list positional holding exactly [c]; with no terminator and one
trailing list positional, parsing a b succeeds with the list holding
[a, b] (the unterminated open list counts as a consumed positional at end
of input). -/
theorem c5_list_terminator :
    (clags_parse env0 ["p", "a", "b", "::", "c"] (some cfgLists) st0).1 = none ∧
    (clags_parse env0 ["p", "a", "b", "::", "c"] (some cfgLists) st0).2.store 51
      = .listv [.vStr "a", .vStr "b"] ∧
    (clags_parse env0 ["p", "a", "b", "::", "c"] (some cfgLists) st0).2.store 52
      = .listv [.vStr "c"] ∧
    (clags_parse env0 ["p", "a", "b"] (some cfgTrail) st0).1 = none ∧
    (clags_parse env0 ["p", "a", "b"] (some cfgTrail) st0).2.store 56
      = .listv [.vStr "a", .vStr "b"] := by
  decide

/-! ## Claim C6 -/

/-- C6 counterexample: with terminator `::` and one required scalar
positional, the token `::` arriving with no list open is consumed and
silently skipped — the positional stays unbound and the parse fails with
`TooFewArguments` — rather than falling through to positional dispatch
(which would have bound "::" and succeeded) as the claim states. -/
theorem c6_counterexample :
    (clags_parse env0 ["p", "::"] (some cfgTerm) st0).1 = some cfgTerm.id ∧
    (clags_parse env0 ["p", "::"] (some cfgTerm) st0).2.error cfgTerm.id
      = .tooFewArguments ∧
    (clags_parse env0 ["p", "::"] (some cfgTerm) st0).2.store 61 = .unset := by
  decide

/-- C6 (amended): a token equal to the configured list terminator that
arrives while no list is open (and is not the toggle token or
ignore-prefixed) is consumed by the terminator rule and silently skipped:
the scanner continues with the remaining tokens, the loop state and the
run state completely unchanged. -/
theorem c6_amended {env : Env} {ctx : PCtx} {fuel : Nat} {rest : List String}
    {ls : LoopSt} {st : GState} {tk : String}
    (hterm : ctx.opts.listTerm = some tk) (hne : tk ≠ "--")
    (hig : matchIgnore ctx.opts.ignorePfx tk = false)
    (hnl : ls.inList = false) :
    parseLoop env (fuel + 1) ctx (tk :: rest) ls st =
      parseLoop env fuel ctx rest ls st := by
  rw [parseLoop.eq_3, parseStep]
  rw [if_neg (fun hc => hne hc.1)]
  rw [if_neg (fun hc => by rw [hig] at hc; exact Bool.false_ne_true hc)]
  rw [if_pos hterm]
  rw [hnl]
  simp only [Bool.false_eq_true, if_false]

/-- Witness for C6 (amended) at the concrete schema and token. -/
theorem c6_amended_witness :
    parseLoop env0 1 (clags__sort_args cfgTerm) ["::"] initLS st0
      = parseLoop env0 0 (clags__sort_args cfgTerm) [] initLS st0 :=
  c6_amended rfl (by decide) rfl rfl

/-! ## Claim C7 -/

/-- C7 counterexample: the token " -5" (leading whitespace before the
minus) denotes a negative number, yet the uint64 verifier accepts it —
`strtoull` skips the whitespace and wraps the value modulo 2^64, and the
`*arg == '-'` guard only inspects the first character — so the
wrapped-around value 2^64-5 is stored in the bound target by a successful
parse. -/
theorem c7_counterexample :
    clags__verify_uint64 " -5" = some 18446744073709551611 ∧
    (clags_parse env0 ["p", " -5"] (some (numCfg .uint64)) st0).1 = none ∧
    (clags_parse env0 ["p", " -5"] (some (numCfg .uint64)) st0).2.store 0
      = .scalar (.vU64 18446744073709551611) := by
  decide

/-- C7 (amended): the unsigned integer verifiers reject every token whose
first character is a minus sign; no value is stored for such tokens. -/
theorem c7_amended :
    (∀ cs : List Char, clags__verify_uint8 ⟨'-' :: cs⟩ = none) ∧
    (∀ cs : List Char, clags__verify_uint32 ⟨'-' :: cs⟩ = none) ∧
    (∀ cs : List Char, clags__verify_uint64 ⟨'-' :: cs⟩ = none) :=
  ⟨uint8_minus, uint32_minus, uint64_minus⟩

/-! ## Claim C10 -/

/-- C10: `clags_parse` with a NULL config, or with a config whose
argument-definition array is NULL, returns NULL with the run state
completely untouched (no validation, no error field write, no token
read) — the same return value a fully successful parse produces. -/
theorem c10_null_args :
    (∀ (env : Env) (argv : List String) (st : GState),
      clags_parse env argv none st = (none, st)) ∧
    (∀ (env : Env) (argv : List String) (st : GState) (cfg : Config),
      cfg.argsF = none → clags_parse env argv (some cfg) st = (none, st)) ∧
    (clags_parse env0 ["p"] (some cfgEmpty) st0).1 = none := by
  refine ⟨fun env argv st => rfl, fun env argv st cfg h => ?_, by decide⟩
  simp only [clags_parse, h, Option.isNone_none, Bool.true_or, if_true]

/-- Witness for C10 at a concrete NULL-args config. -/
theorem c10_null_args_witness :
    clags_parse env0 ["x"] (some cfgNullArgs) st0 = (none, st0) :=
  c10_null_args.2.1 env0 ["x"] st0 cfgNullArgs rfl

/-! ## Claim C3 -/

/-- C3: when the subcommand positional matches "build", the child schema
`childA` is parent-linked to the root before success, and the parse of
the root on ["prog", "build", ...rest] equals the recursive
`clags_parse` of `childA` on ["build", ...rest] (the matched name token
taking the child's program-name slot) applied to the linked state — so
the child's result is returned unchanged; concretely, parsing
["prog", "build", "--fast"] sets childA's `fast` flag and returns NULL,
with childA's parent reference set to the root. -/
theorem c3_subcommand :
    (∀ (rest : List String) (st : GState), st.invalid rootSub.id = false →
      clags_parse env0 ("prog" :: "build" :: rest) (some rootSub) st =
        clags_parse env0 ("build" :: rest) (some childA) (subLinkState st) ∧
      (subLinkState st).parents childA.id = some rootSub.id) ∧
    (clags_parse env0 ["prog", "build", "--fast"] (some rootSub) st0).1 = none ∧
    (clags_parse env0 ["prog", "build", "--fast"] (some rootSub) st0).2.store 30
      = .scalar (.vBool true) ∧
    (clags_parse env0 ["prog", "build", "--fast"] (some rootSub) st0).2.parents
      childA.id = some rootSub.id := by
  refine ⟨fun rest st hinv => ⟨?_, rfl⟩, by decide, by decide, by decide⟩
  rw [clags_parse_via_validate (show rootSub.argsF.isNone = false from rfl) hinv
    (show clags__validate_config rootSub st = (true, st) from rfl)]
  rfl

/-- Witness for C3 at empty remaining tokens and the fresh state. -/
theorem c3_subcommand_witness :
    clags_parse env0 ["prog", "build"] (some rootSub) st0 =
      clags_parse env0 ["build"] (some childA) (subLinkState st0) ∧
    (subLinkState st0).parents childA.id = some rootSub.id :=
  c3_subcommand.1 [] st0 rfl

/-! ## Claim C8 -/

theorem unitFactor_pos {u : List Char} {f : Nat} (h : unitFactor u = some f) :
    0 < f := by
  simp only [unitFactor] at h
  split_ifs at h <;> (injection h with h; omega)

/-- C8: the size verifier computes magnitude times unit factor over the
table {""/B = 1, KiB = 2^10, KB = 10^3, MiB = 2^20, MB = 10^6,
GiB = 2^30, GB = 10^9, TiB = 2^40, TB = 10^12}, matching units
case-insensitively except the bare "B" suffix, and rejects magnitudes
whose product would overflow 64 bits — every accepted size fits in
uint64; in particular "10KiB" is 10240, "2MB" is 2000000 and a bare
"1024" is 1024. -/
theorem c8_size :
    (∀ (s : String) (v : Nat), clags__verify_size s = some v → v ≤ U64MAX) ∧
    clags__verify_size "10KiB" = some 10240 ∧
    clags__verify_size "2MB" = some 2000000 ∧
    clags__verify_size "1024" = some 1024 ∧
    clags__verify_size "1" = some 1 ∧
    clags__verify_size "1B" = some 1 ∧
    clags__verify_size "1KiB" = some 1024 ∧
    clags__verify_size "1KB" = some 1000 ∧
    clags__verify_size "1MiB" = some 1048576 ∧
    clags__verify_size "1MB" = some 1000000 ∧
    clags__verify_size "1GiB" = some 1073741824 ∧
    clags__verify_size "1GB" = some 1000000000 ∧
    clags__verify_size "1TiB" = some 1099511627776 ∧
    clags__verify_size "1TB" = some 1000000000000 ∧
    clags__verify_size "10kib" = some 10240 ∧
    clags__verify_size "10kb" = some 10000 ∧
    clags__verify_size "10B" = some 10 ∧
    clags__verify_size "10b" = none ∧
    clags__verify_size "16777216TiB" = none ∧
    clags__verify_size "16777215TiB" = some 18446742974197923840 ∧
    clags__verify_size "18446744073709551616" = none := by
  refine ⟨fun s v h => ?_, by decide⟩
  simp only [clags__verify_size] at h
  split_ifs at h with hc
  split at h
  next f hu =>
    split_ifs at h with hrej
    have hle : (strtoul64 false s.data).value ≤ U64MAX / f := by
      push_neg at hrej
      omega
    have hf := unitFactor_pos hu
    injection h with h
    subst h
    calc (strtoul64 false s.data).value * f ≤ U64MAX / f * f :=
          Nat.mul_le_mul_right f hle
      _ ≤ U64MAX := Nat.div_mul_le_self U64MAX f
  next hu => exact absurd h (by simp)

/-- Witness for C8's overflow bound at the concrete size "10KiB". -/
theorem c8_size_witness : (10240 : Nat) ≤ U64MAX :=
  c8_size.1 "10KiB" 10240 (by decide)

/-! ## Claim C9: lemmas about the validation walk -/

theorem validate_option_fst (ml : Lvl) (o : OptDef) (st : GState) :
    (clags__validate_option ml o st).1 = optCheckOk o := by
  obtain ⟨sf, lf, vid, vt, il, pl⟩ := o
  cases vt <;> cases pl <;> rfl

theorem validate_flag_fst (ml : Lvl) (f : FlagDef) (st : GState) :
    (clags__validate_flag ml f st).1 = true := rfl

theorem validateArgs_ok_order (ml : Lvl) (lt : Option String) :
    ∀ (args : List CArgC) (lw sf b : Bool) (ln : Option String) (st : GState),
      (validateArgs ml lt args lw sf b ln st).1 = .okR →
      okOrder b (positionalsOf args) := by
  intro args
  induction args with
  | nil => intro lw sf b ln st _; trivial
  | cons a tl ih =>
    intro lw sf b ln st h
    cases a with
    | pos p =>
      rw [show positionalsOf (CArgG.pos p :: tl) = p :: positionalsOf tl from rfl]
      simp only [validateArgs] at h
      rcases hvp : clags__validate_positional ml p st with ⟨ok, st1⟩
      rw [hvp] at h
      cases ok
      · simp at h
      · split_ifs at h with h1 h2 h3 h4
        refine ⟨fun hb => ?_, ih _ _ _ _ _ h⟩
        rcases Bool.eq_false_or_eq_true p.optional with hop | hop
        · exact hop
        · exact absurd ⟨hb, by simp [hop]⟩ h1
    | opt o =>
      rw [show positionalsOf (CArgG.opt o :: tl) = positionalsOf tl from rfl]
      simp only [validateArgs] at h
      rcases hvo : clags__validate_option ml o st with ⟨ok, st1⟩
      rw [hvo] at h
      cases ok
      · simp at h
      · exact ih _ _ _ _ _ h
    | flag f =>
      rw [show positionalsOf (CArgG.flag f :: tl) = positionalsOf tl from rfl]
      simp only [validateArgs] at h
      rcases hvf : clags__validate_flag ml f st with ⟨ok, st1⟩
      rw [hvf] at h
      cases ok
      · simp at h
      · exact ih _ _ _ _ _ h

theorem okOrder_all : ∀ ps : List PosDefC, okOrder true ps →
    ∀ p ∈ ps, p.optional = true := by
  intro ps
  induction ps with
  | nil => intro _ p hp; simp at hp
  | cons q tl ih =>
    rintro ⟨hq, htl⟩ p hp
    have hq' : q.optional = true := hq rfl
    rw [hq'] at htl
    rcases List.mem_cons.mp hp with rfl | hp2
    · exact hq'
    · exact ih htl p hp2

theorem okOrder_mono : ∀ (ps : List PosDefC) (b : Bool), okOrder b ps →
    ∀ (i j : Nat) (hi : i < ps.length) (hj : j < ps.length), i < j →
      (ps.get ⟨i, hi⟩).optional = true → (ps.get ⟨j, hj⟩).optional = true := by
  intro ps
  induction ps with
  | nil => intro b _ i j hi; exact absurd hi (Nat.not_lt_zero i)
  | cons q tl ih =>
    rintro b ⟨hq, htl⟩ i j hi hj hij hopt
    cases j with
    | zero => omega
    | succ j' =>
      have hj' : j' < tl.length := by simpa using hj
      rw [show (q :: tl).get ⟨j' + 1, hj⟩ = tl.get ⟨j', hj'⟩ from rfl]
      cases i with
      | zero =>
        have hqo : q.optional = true := hopt
        rw [hqo] at htl
        exact okOrder_all tl htl _ (tl.get_mem j' hj')
      | succ i' =>
        have hi' : i' < tl.length := by simpa using hi
        refine ih q.optional htl i' j' hi' hj' (by omega) ?_
        exact hopt

theorem okOrder_no_pair {b : Bool} {ps : List PosDefC} (h : okOrder b ps) :
    ¬ hasReqAfterOpt ps := by
  rintro ⟨i, j, hij, hio, hjo⟩
  have hmono := okOrder_mono ps b h i.val j.val i.isLt j.isLt hij hio
  rw [hmono] at hjo
  simp at hjo

theorem validateArgs_ne_bail (ml : Lvl) (lt : Option String) :
    ∀ (args : List CArgC) (lw sf b : Bool) (ln : Option String) (st : GState),
      (∀ o : OptDef, CArgG.opt o ∈ args → optCheckOk o = true) →
      (validateArgs ml lt args lw sf b ln st).1 ≠ .bailR := by
  intro args
  induction args with
  | nil => intro lw sf b ln st _ h; simp [validateArgs] at h
  | cons a tl ih =>
    intro lw sf b ln st hopts h
    cases a with
    | pos p =>
      simp only [validateArgs] at h
      rcases hvp : clags__validate_positional ml p st with ⟨ok, st1⟩
      rw [hvp] at h
      cases ok
      · simp at h
      · split_ifs at h with h1 h2 h3 h4
        exact ih _ _ _ _ _ (fun o ho => hopts o (List.mem_cons_of_mem _ ho)) h
    | opt o =>
      simp only [validateArgs] at h
      rcases hvo : clags__validate_option ml o st with ⟨ok, st1⟩
      rw [hvo] at h
      have hfst : ok = optCheckOk o := by
        have hf := validate_option_fst ml o st
        rw [hvo] at hf
        exact hf
      rw [hopts o (List.mem_cons_self _ _)] at hfst
      cases ok
      · exact absurd hfst Bool.false_ne_true
      · exact ih _ _ _ _ _ (fun o2 ho => hopts o2 (List.mem_cons_of_mem _ ho)) h
    | flag f =>
      simp only [validateArgs] at h
      rcases hvf : clags__validate_flag ml f st with ⟨ok, st1⟩
      rw [hvf] at h
      have hfst : ok = true := by
        have hf := validate_flag_fst ml f st
        rw [hvf] at hf
        exact hf
      cases ok
      · exact absurd hfst (by simp)
      · exact ih _ _ _ _ _ (fun o2 ho => hopts o2 (List.mem_cons_of_mem _ ho)) h

/-- C9 counterexample: `cfgMixed` declares a required positional after an
optional one, yet its first failing declaration is an option whose check
fails through the bare `return false` path — the parse call returns the
config marked invalid, but the error field stays `Ok`, not
`InvalidConfig`. -/
theorem c9_counterexample :
    hasReqAfterOpt (positionalsOf cfgMixed.argsList) ∧
    (clags_parse env0 ["p"] (some cfgMixed) st0).1 = some cfgMixed.id ∧
    (clags_parse env0 ["p"] (some cfgMixed) st0).2.invalid cfgMixed.id = true ∧
    (clags_parse env0 ["p"] (some cfgMixed) st0).2.error cfgMixed.id = .ok := by
  refine ⟨⟨⟨0, by decide⟩, ⟨1, by decide⟩, by decide, by decide, by decide⟩, ?_, ?_, ?_⟩
  · rfl
  · rfl
  · rfl

/-- C9 (amended): for every schema whose option and flag declarations
pass their own checks and which declares a required positional anywhere
after an optional one, every parse call fails from the one-time schema
walk before looking at any token: the resulting run state is one and the
same for all argument vectors, the call returns the config, its error
field is set to `InvalidConfig` and the schema is marked invalid. -/
theorem c9_amended {env : Env} {cfg : Config} {st : GState} {l : List CArgC}
    (hargs : cfg.argsF = some l)
    (horder : hasReqAfterOpt (positionalsOf l))
    (hopts : ∀ o : OptDef, CArgG.opt o ∈ l → optCheckOk o = true)
    (hinv : st.invalid cfg.id = false) :
    ∃ st', (∀ argv : List String,
        clags_parse env argv (some cfg) st = (some cfg.id, st')) ∧
      st'.error cfg.id = .invalidConfig ∧ st'.invalid cfg.id = true := by
  have hlist : cfg.argsList = l := by simp [Config.argsList, hargs]
  have hval : ∃ st1, clags__validate_config cfg st = (false, st1) ∧
      st1.error cfg.id = .invalidConfig := by
    by_cases ht1 : cfg.opts.listTerm = some "--"
    · refine ⟨setErrorSt cfg.id .invalidConfig
        (emitLog cfg.opts.minLogLevel .configError st), ?_, ?_⟩
      · simp [clags__validate_config, ht1]
      · simp [setErrorSt, fupd]
    · by_cases ht2 : cfg.opts.ignorePfx = some "--"
      · refine ⟨setErrorSt cfg.id .invalidConfig
          (emitLog cfg.opts.minLogLevel .configError st), ?_, ?_⟩
        · simp [clags__validate_config, ht1, ht2]
        · simp [setErrorSt, fupd]
      · rcases hw : validateArgs cfg.opts.minLogLevel cfg.opts.listTerm cfg.argsList
            false false false none st with ⟨res, st1⟩
        cases res with
        | okR =>
          have hord := validateArgs_ok_order cfg.opts.minLogLevel cfg.opts.listTerm
            cfg.argsList false false false none st (by rw [hw])
          rw [hlist] at hord
          exact absurd horder (okOrder_no_pair hord)
        | deferR =>
          refine ⟨setErrorSt cfg.id .invalidConfig st1, ?_, ?_⟩
          · simp [clags__validate_config, ht1, ht2, hw]
          · simp [setErrorSt, fupd]
        | bailR =>
          have hnb := validateArgs_ne_bail cfg.opts.minLogLevel cfg.opts.listTerm
            cfg.argsList false false false none st
            (fun o ho => hopts o (by rwa [hlist] at ho))
          rw [hw] at hnb
          exact absurd rfl hnb
  obtain ⟨st1, hv, herr⟩ := hval
  refine ⟨{st1 with invalid := fupd st1.invalid cfg.id true}, fun argv => ?_, herr, ?_⟩
  · simp only [clags_parse, hargs, Option.isNone_some, hinv, Bool.or_self,
      Bool.false_eq_true, if_false, hv]
  · simp [fupd]

/-- Witness for C9 (amended) at the concrete optional-then-required
schema `cfgBadOrder`. -/
theorem c9_amended_witness :
    ∃ st', (∀ argv : List String,
        clags_parse env0 argv (some cfgBadOrder) st0 = (some cfgBadOrder.id, st')) ∧
      st'.error cfgBadOrder.id = .invalidConfig ∧
      st'.invalid cfgBadOrder.id = true :=
  c9_amended rfl ⟨⟨0, by decide⟩, ⟨1, by decide⟩, by decide, by decide, by decide⟩
    (fun o ho => by simp at ho) rfl

end Clags
